import Mathlib

/-!
Verification of core routing, registry, OAuth and provider-adapter logic of the
claude-code-mux gateway, as a shallow embedding in Lean 4.

Conventions used throughout:
* Rust `String`/`&str` values are embedded as `List Char` (abbreviated `Str`),
  so that all algorithms are plain structural recursion and remain executable.
* Rust `HashMap`/`BTreeMap` values are embedded as association lists where an
  insert prepends (so a later insert shadows an earlier one) and a lookup takes
  the first hit.  Only insert/lookup semantics are used by the code under
  study, so iteration order of the map itself never matters.
* `chrono::DateTime<Utc>` instants are embedded as `Int` (seconds); the
  five-minute refresh buffer `chrono::Duration::minutes(5)` is 300 seconds.
* `std::time::Duration` is embedded as a rational number of seconds.
* Fallible Rust paths (`Result`, panics) are embedded with `Except`/`Option`.
* Asynchronous HTTP calls are embedded by passing the outcome of the network
  interaction (status/body or a transport error) as an explicit argument.
-/

abbrev Str := List Char

/-- Association-list embedding of a Rust map insert: prepend, so the newest
binding for a key shadows any older one. -/
def mapInsert {α : Type} (k : Str) (v : α) (m : List (Str × α)) : List (Str × α) :=
  (k, v) :: m

/-- Association-list embedding of a Rust map lookup: first (newest) binding. -/
def mapLookup {α : Type} (k : Str) : List (Str × α) → Option α
  | [] => none
  | (k', v) :: rest => if k' = k then some v else mapLookup k rest

/-- Leftmost occurrence of the pattern `pat` as a contiguous sublist of `s`:
returns the part strictly before the occurrence and the part strictly after
it.  Embeds `str::find` / the scanning step of regex literal search. -/
def splitFirst (pat : Str) : Str → Option (Str × Str)
  | [] => if pat = [] then some ([], []) else none
  | c :: rest =>
      if pat.isPrefixOf (c :: rest) then some ([], (c :: rest).drop pat.length)
      else (splitFirst pat rest).map (fun ba => (c :: ba.1, ba.2))

/-- Embeds Rust `str::contains(pat)` (substring containment). -/
def containsSub (pat s : Str) : Bool :=
  (splitFirst pat s).isSome

/-- Embeds Rust `str::strip_suffix`. -/
def stripSuffixStr (suf s : Str) : Option Str :=
  if suf.isSuffixOf s then some (s.take (s.length - suf.length)) else none

/-- Embeds Rust `str::split(sep).collect::<Vec<_>>()` for a character
separator (empty segments are kept, as in Rust). -/
def splitChar (sep : Char) : Str → List Str
  | [] => [[]]
  | c :: rest =>
      if c = sep then [] :: splitChar sep rest
      else match splitChar sep rest with
        | [] => [[c]]
        | seg :: segs => (c :: seg) :: segs

/-- Embeds `Vec<String>::join("\n")` / `.collect::<Vec<_>>().join("\n")`. -/
def joinNewline (xs : List Str) : Str :=
  match xs with
  | [] => []
  | [x] => x
  | x :: rest => x ++ '\n' :: joinNewline rest

/-- JSON values (`serde_json::Value`).  Objects are association lists in
document order; numbers are decimal mantissa/exponent pairs (the value is
`mantissa * 10 ^ exponent`) together with a `float` flag recording whether
the literal had a fraction or exponent part: serde_json parses such literals
as `f64` (`Number::F64`) and only integer literals (`float = false`, which
the parser always emits with `exponent = 0`) deserialize into integer types
such as `u16` — the number distinction the embedded code consults. -/
inductive Json where
  | null : Json
  | bool (b : Bool) : Json
  | num (mantissa : Int) (exponent : Int) (float : Bool) : Json
  | str (s : Str) : Json
  | arr (elems : List Json) : Json
  | obj (fields : List (Str × Json)) : Json
  deriving Repr

/-- Embeds `serde_json::Value::get(key)`: a field of an object, `None` on
non-objects. -/
def jsonGet (key : Str) : Json → Option Json
  | .obj fields => mapLookup key fields
  | _ => none

/-- Embeds `serde_json::Value::as_str()`. -/
def jsonAsStr : Json → Option Str
  | .str s => some s
  | _ => none

/-- The JSON-Schema metadata keys removed by the Gemini schema cleaner
(`src/providers/gemini.rs`, `clean_json_schema`). -/
def forbiddenKeys : List Str :=
  ["$schema".data, "$id".data, "$ref".data, "$comment".data,
   "exclusiveMinimum".data, "exclusiveMaximum".data, "definitions".data, "$defs".data]

mutual

/-- Embeds `clean_json_schema` (`src/providers/gemini.rs:29-55`): on an
object, remove the eight metadata keys, then recursively clean the remaining
values; on an array, recursively clean the elements; leave scalars alone. -/
def clean_json_schema : Json → Json
  | .obj fields => .obj (cleanFields fields)
  | .arr elems => .arr (cleanElems elems)
  | v => v

/-- The object part of `clean_json_schema`: the `map.remove(..)` calls drop
every forbidden key, and the `iter_mut` loop cleans each remaining value. -/
def cleanFields : List (Str × Json) → List (Str × Json)
  | [] => []
  | (k, v) :: rest =>
      if forbiddenKeys.contains k then cleanFields rest
      else (k, clean_json_schema v) :: cleanFields rest

/-- The array part of `clean_json_schema`: clean every element. -/
def cleanElems : List Json → List Json
  | [] => []
  | e :: rest => clean_json_schema e :: cleanElems rest

end

mutual

/-- `true` iff a forbidden JSON-Schema metadata key occurs anywhere in the
value, at any nesting depth (the property the spec asserts of cleaned
output). -/
def hasForbiddenKey : Json → Bool
  | .obj fields => fieldsHaveForbidden fields
  | .arr elems => elemsHaveForbidden elems
  | _ => false

def fieldsHaveForbidden : List (Str × Json) → Bool
  | [] => false
  | (k, v) :: rest =>
      forbiddenKeys.contains k || hasForbiddenKey v || fieldsHaveForbidden rest

def elemsHaveForbidden : List Json → Bool
  | [] => false
  | e :: rest => hasForbiddenKey e || elemsHaveForbidden rest

end

/-! ## Canonical message model

The `crate::models` module is referenced throughout the source (router,
providers) but its file is not part of the source snapshot; the shapes below
follow the specification's data model, each corroborated by the fields the
router and the provider adapters actually read or write. -/

/-- Modelled from the spec: `thinking` request field `{type, budget_tokens}`
(`crate::models::ThinkingConfig`; construction visible in router tests). -/
structure ThinkingConfig where
  type : Str
  budget_tokens : Option Nat
  deriving Repr, DecidableEq

/-- Modelled from the spec: a canonical tool definition
`{name, description, input_schema, type}` (`crate::models::Tool`;
construction visible in router tests, all four fields optional). -/
structure Tool where
  type : Option Str
  name : Option Str
  description : Option Str
  input_schema : Option Json
  deriving Repr

/-- Modelled from the spec: one system block `{text}`
(`crate::models::SystemBlock`; the router reads and rewrites `.text`). -/
structure SystemBlock where
  text : Str
  deriving Repr, DecidableEq

/-- Modelled from the spec: the system prompt, either plain text or ordered
blocks (`crate::models::SystemPrompt`, variants `Text` and `Blocks`). -/
inductive SystemPrompt where
  | text (s : Str) : SystemPrompt
  | blocks (bs : List SystemBlock) : SystemPrompt
  deriving Repr, DecidableEq

/-- Modelled from the spec: an image source
`{type ∈ {base64, url}, media_type?, data?, url?}`. -/
structure ImageSource where
  type : Str
  media_type : Option Str
  data : Option Str
  url : Option Str
  deriving Repr, DecidableEq

/-- Modelled from the spec: a canonical content block
(`crate::models::ContentBlock`, variants `Text`, `Image`, `ToolUse`,
`ToolResult`, `Thinking`). -/
inductive ContentBlock where
  | text (text : Str) : ContentBlock
  | image (source : ImageSource) : ContentBlock
  | toolUse (id : Str) (name : Str) (input : Json) : ContentBlock
  | toolResult (tool_use_id : Str) (content : Json) : ContentBlock
  | thinking (thinking : Str) (signature : Str) : ContentBlock
  deriving Repr

/-- Modelled from the spec: message content, plain text or blocks
(`crate::models::MessageContent`). -/
inductive MessageContent where
  | text (s : Str) : MessageContent
  | blocks (bs : List ContentBlock) : MessageContent
  deriving Repr

/-- Modelled from the spec: one chat message `{role, content}`
(`crate::models::Message`). -/
structure Message where
  role : Str
  content : MessageContent
  deriving Repr

/-- Modelled from the spec: the canonical request
(`crate::models::AnthropicRequest`; the exact field list is visible in the
router tests' struct literals). -/
structure AnthropicRequest where
  model : Str
  messages : List Message
  max_tokens : Nat
  thinking : Option ThinkingConfig
  temperature : Option ℚ
  top_p : Option ℚ
  top_k : Option Nat
  stop_sequences : Option (List Str)
  stream : Option Bool
  metadata : Option Json
  system : Option SystemPrompt
  tools : Option (List Tool)
  deriving Repr

/-- Modelled from the spec: the route kind
(`crate::models::RouteType`, variants `WebSearch`, `Think`, `Background`,
`Default`). -/
inductive RouteType where
  | webSearch : RouteType
  | think : RouteType
  | background : RouteType
  | default : RouteType
  deriving Repr, DecidableEq

/-- Modelled from the spec: the route decision `{model_name, route_type}`
(`crate::models::RouteDecision`). -/
structure RouteDecision where
  model_name : Str
  route_type : RouteType
  deriving Repr, DecidableEq

/-! ## Router (`src/router/mod.rs`) -/

/-- Router configuration (`src/config.rs`, `RouterConfig`). -/
structure RouterConfig where
  default : Str
  background : Option Str
  think : Option Str
  websearch : Option Str
  auto_map_regex : Option Str
  background_regex : Option Str
  deriving Repr

/-- The router (`src/router/mod.rs`, `struct Router`): the config snapshot
plus the two compiled regexes, embedded as boolean matchers.  `Router::new`
always produces `Some` matcher for each (empty or invalid patterns fall back
to the defaults below), but the struct itself holds `Option`s, which is kept
here. -/
structure Router where
  config : RouterConfig
  auto_map_regex : Option (Str → Bool)
  background_regex : Option (Str → Bool)

/-- The default auto-map pattern `^claude-` as a matcher. -/
def defaultAutoMapRegex (s : Str) : Bool :=
  "claude-".data.isPrefixOf s

/-- Helper for `(?i)claude.*haiku`: after a `claude`, scan right for `haiku`;
`.` in the Rust regex crate does not match a newline, so the scan stops at
`'\n'`. -/
def haikuAfter : Str → Bool
  | [] => false
  | c :: rest =>
      if "haiku".data.isPrefixOf (c :: rest) then true
      else if c = '\n' then false
      else haikuAfter rest

/-- Helper for `(?i)claude.*haiku` on an already-lowercased string: some
occurrence of `claude` is followed (newline-free) by `haiku`. -/
def claudeThenHaiku : Str → Bool
  | [] => false
  | c :: rest =>
      if "claude".data.isPrefixOf (c :: rest) then
        if haikuAfter ((c :: rest).drop 6) then true else claudeThenHaiku rest
      else claudeThenHaiku rest

/-- The default background pattern `(?i)claude.*haiku` as a matcher: case
folding is applied up front (the pattern's literals are lowercase ASCII). -/
def defaultBackgroundRegex (s : Str) : Bool :=
  claudeThenHaiku (s.map Char.toLower)

/-- Embeds `Router::has_web_search_tool`: some entry of `request.tools` has a
`type` starting with `web_search`. -/
def hasWebSearchTool (req : AnthropicRequest) : Bool :=
  match req.tools with
  | some tools =>
      tools.any (fun t =>
        match t.type with
        | some ty => "web_search".data.isPrefixOf ty
        | none => false)
  | none => false

/-- Embeds `Router::is_plan_mode`: `request.thinking.type == "enabled"`. -/
def isPlanMode (req : AnthropicRequest) : Bool :=
  match req.thinking with
  | some t => t.type = "enabled".data
  | none => false

/-- Embeds `Router::is_background_task`: match the background regex against
the given model name. -/
def Router.is_background_task (r : Router) (model : Str) : Bool :=
  match r.background_regex with
  | some m => m model
  | none => false

/-- The opening delimiter of the subagent tag. -/
def subagentOpen : Str := "<CCM-SUBAGENT-MODEL>".data

/-- The closing delimiter of the subagent tag. -/
def subagentClose : Str := "</CCM-SUBAGENT-MODEL>".data

/-- One scanning pass of the Rust regex
`<CCM-SUBAGENT-MODEL>(.*?)</CCM-SUBAGENT-MODEL>`: at each candidate position
in turn, the literal opening delimiter must match, and the lazy `(.*?)`
captures up to the first closing delimiter, with `.` not crossing a newline.
Returns `(prefix, captured name, remainder after the closing delimiter)` of
the leftmost match. -/
def findTag : Str → Option (Str × Str × Str)
  | [] => none
  | c :: rest =>
      if subagentOpen.isPrefixOf (c :: rest) then
        match splitFirst subagentClose ((c :: rest).drop subagentOpen.length) with
        | some (name, after) =>
            if name.contains '\n' then
              (findTag rest).map (fun pna => (c :: pna.1, pna.2.1, pna.2.2))
            else some ([], name, after)
        | none => (findTag rest).map (fun pna => (c :: pna.1, pna.2.1, pna.2.2))
      else (findTag rest).map (fun pna => (c :: pna.1, pna.2.1, pna.2.2))

/-- Fuel-driven worker for `Regex::replace_all(text, "")`: repeatedly delete
the leftmost match and continue after it.  Each successful `findTag` strictly
shrinks the remainder, so fuel `s.length` always suffices; the defining
recurrence is proved as `removeTags_eq` below. -/
def removeTagsFuel : Nat → Str → Str
  | 0, s => s
  | fuel + 1, s =>
      match findTag s with
      | some (pre, _, after) => pre ++ removeTagsFuel fuel after
      | none => s

/-- Embeds `re.replace_all(&second_block.text, "")`: remove every
(non-overlapping, leftmost-first) match of the subagent-tag regex. -/
def removeTags (s : Str) : Str :=
  removeTagsFuel s.length s

/-- Embeds `Router::extract_subagent_model`: on a `Blocks` system prompt with
at least two blocks whose second block contains the opening delimiter, capture
the first tag's name, strip all tag occurrences from that block's text, and
return the name; otherwise return `none` and leave the request unchanged. -/
def extract_subagent_model (req : AnthropicRequest) : Option Str × AnthropicRequest :=
  match req.system with
  | some (.blocks (b0 :: b1 :: rest)) =>
      if containsSub subagentOpen b1.text then
        match findTag b1.text with
        | some (_, name, _) =>
            (some name,
             { req with system := some (.blocks (b0 :: ⟨removeTags b1.text⟩ :: rest)) })
        | none => (none, req)
      else (none, req)
  | _ => (none, req)

/-- Step 4 of `Router::route`: background tasks, checked against the ORIGINAL
model name; falls through to the default decision with the (possibly
rewritten) request model. -/
def Router.routeBackground (r : Router) (originalModel : Str)
    (req : AnthropicRequest) : RouteDecision × AnthropicRequest :=
  match r.config.background with
  | some bg =>
      if r.is_background_task originalModel then (⟨bg, .background⟩, req)
      else (⟨req.model, .default⟩, req)
  | none => (⟨req.model, .default⟩, req)

/-- Step 3 of `Router::route`: think mode (Plan Mode). -/
def Router.routeThink (r : Router) (originalModel : Str)
    (req : AnthropicRequest) : RouteDecision × AnthropicRequest :=
  match r.config.think with
  | some tm =>
      if isPlanMode req then (⟨tm, .think⟩, req)
      else r.routeBackground originalModel req
  | none => r.routeBackground originalModel req

/-- Step 2 of `Router::route`: the subagent system-prompt tag. -/
def Router.routeSubagent (r : Router) (originalModel : Str)
    (req : AnthropicRequest) : RouteDecision × AnthropicRequest :=
  match extract_subagent_model req with
  | (some name, req') => (⟨name, .default⟩, req')
  | (none, req') => r.routeThink originalModel req'

/-- Step 0 of `Router::route`: the auto-map rewrite — when the auto-map
regex matches `request.model`, overwrite it with `router.default`. -/
def Router.autoMapStep (r : Router) (req0 : AnthropicRequest) : AnthropicRequest :=
  match r.auto_map_regex with
  | some m => if m req0.model then { req0 with model := r.config.default } else req0
  | none => req0

/-- Embeds `Router::route` (`src/router/mod.rs:90-156`).  The Rust signature
returns `Result` but every path is `Ok`; the decision plus the possibly
mutated request are returned.  Order: save the original model; auto-map
rewrite; WebSearch; subagent tag; Think; Background (against the original
model); default. -/
def Router.route (r : Router) (req0 : AnthropicRequest) : RouteDecision × AnthropicRequest :=
  let originalModel := req0.model
  let req1 := r.autoMapStep req0
  match r.config.websearch with
  | some ws =>
      if hasWebSearchTool req1 then (⟨ws, .webSearch⟩, req1)
      else r.routeSubagent originalModel req1
  | none => r.routeSubagent originalModel req1

/-! ## Provider registry (`src/providers/registry.rs`, `src/providers/mod.rs`,
`src/config.rs`) -/

/-- Authentication type (`src/providers/mod.rs`, `enum AuthType`). -/
inductive AuthType where
  | apiKey : AuthType
  | oauth : AuthType
  deriving Repr, DecidableEq

/-- Provider configuration (`src/providers/mod.rs`, `struct ProviderConfig`). -/
structure ProviderConfig where
  name : Str
  provider_type : Str
  auth_type : AuthType
  api_key : Option Str
  oauth_provider : Option Str
  project_id : Option Str
  location : Option Str
  base_url : Option Str
  models : List Str
  enabled : Option Bool
  deriving Repr, DecidableEq

/-- Embeds `ProviderConfig::is_enabled`. -/
def ProviderConfig.is_enabled (c : ProviderConfig) : Bool :=
  c.enabled.getD true

/-- Embeds `ProviderConfig::get_auth_credential`. -/
def ProviderConfig.get_auth_credential (c : ProviderConfig) : Option Str :=
  match c.auth_type with
  | .apiKey => c.api_key
  | .oauth => c.oauth_provider

/-- Model mapping (`src/config.rs`, `struct ModelMapping`): priority 1 is the
highest. -/
structure ModelMapping where
  priority : Nat
  provider : Str
  actual_model : Str
  deriving Repr, DecidableEq

/-- Model configuration (`src/config.rs`, `struct ModelConfig`). -/
structure ModelConfig where
  name : Str
  mappings : List ModelMapping
  deriving Repr, DecidableEq

/-- The closed set of provider types accepted by the registry's `match` in
`ProviderRegistry::new_from_app_state_deps`. -/
def knownProviderTypes : List Str :=
  ["openai".data, "anthropic".data, "z.ai".data, "minimax".data, "zenmux".data,
   "kimi-coding".data, "openrouter".data, "deepinfra".data, "novita".data,
   "baseten".data, "together".data, "fireworks".data, "groq".data, "nebius".data,
   "cerebras".data, "moonshot".data, "gemini".data, "vertex-ai".data]

/-- The registry's two lookup tables (`struct ProviderRegistry`): the adapter
map is reduced to its key set (which adapter was built does not matter for
the model-table claims). -/
structure ProviderRegistry where
  providers : List Str
  model_to_provider : List (Str × Str)
  deriving Repr, DecidableEq

/-- Phase 1 of `ProviderRegistry::new_from_app_state_deps`
(`src/providers/registry.rs:30-187`): walk the provider configs in order,
skipping disabled entries; fail when the credential is missing or the
provider type is unknown; otherwise register the provider and seed the model
table from its declared `models` list (`for model_name in &provider_config.models`). -/
def seedPhase : List ProviderConfig → List Str → List (Str × Str) →
    Except Str (List Str × List (Str × Str))
  | [], provs, table => .ok (provs, table)
  | c :: rest, provs, table =>
      if c.is_enabled = false then seedPhase rest provs table
      else
        match c.get_auth_credential with
        | none => .error ("requires api_key or oauth_provider".data)
        | some _ =>
            if knownProviderTypes.contains c.provider_type then
              seedPhase rest (c.name :: provs)
                (c.models.foldl (fun t m => mapInsert m c.name t) table)
            else .error ("Unknown provider type".data)

/-- Inner loop of phase 2 (`src/providers/registry.rs:190-200`): for EACH
mapping of a `[[models]]` entry, require the target provider to exist and
insert `name → mapping.provider` — every iteration overwrites the previous
one, so the mapping that remains is the last of the list, independent of the
`priority` fields. -/
def applyMappings (name : Str) : List ModelMapping → List Str → List (Str × Str) →
    Except Str (List (Str × Str))
  | [], _, table => .ok table
  | m :: ms, provs, table =>
      if provs.contains m.provider then
        applyMappings name ms provs (mapInsert name m.provider table)
      else .error ("maps to unknown provider".data)

/-- Phase 2 of `ProviderRegistry::new_from_app_state_deps`: fold
`applyMappings` over the `[[models]]` section in order. -/
def mappingsPhase : List ModelConfig → List Str → List (Str × Str) →
    Except Str (List (Str × Str))
  | [], _, table => .ok table
  | mc :: rest, provs, table =>
      match applyMappings mc.name mc.mappings provs table with
      | .ok table' => mappingsPhase rest provs table'
      | .error e => .error e

/-- Embeds `ProviderRegistry::new_from_app_state_deps` restricted to its
observable tables: seed from providers, then apply the `[[models]]`
mappings. -/
def new_from_app_state_deps (pcs : List ProviderConfig) (mcs : List ModelConfig) :
    Except Str ProviderRegistry :=
  match seedPhase pcs [] [] with
  | .error e => .error e
  | .ok (provs, table) =>
      match mappingsPhase mcs provs table with
      | .error e => .error e
      | .ok table' => .ok ⟨provs, table'⟩

/-- The spec's words, for comparison with the built table: "only the
top-priority mapping (lower number = higher priority) is recorded"; among
several mappings this selects one with the least `priority` value. -/
def topPriorityMapping (ms : List ModelMapping) : Option ModelMapping :=
  ms.foldl
    (fun best m =>
      match best with
      | none => some m
      | some b => if m.priority < b.priority then some m else some b)
    none

/-! ## Token store and OAuth client (`src/auth/token_store.rs`,
`src/auth/oauth.rs`) -/

/-- OAuth token record (`src/auth/token_store.rs:10-23`, `struct OAuthToken`).
Its fields are exactly `provider_id`, `access_token`, `refresh_token`,
`expires_at` and the optional `enterprise_url`; the struct declares NO
`project_id` field (although `src/providers/gemini.rs:433` reads one). -/
structure OAuthToken where
  provider_id : Str
  access_token : Str
  refresh_token : Str
  expires_at : Int
  enterprise_url : Option Str
  deriving Repr, DecidableEq

/-- Embeds `OAuthToken::is_expired`: `now >= expires_at`. -/
def OAuthToken.is_expired (t : OAuthToken) (now : Int) : Bool :=
  decide (now ≥ t.expires_at)

/-- Embeds `OAuthToken::needs_refresh`: `now + 5 minutes >= expires_at`
(instants in seconds, so the buffer is 300). -/
def OAuthToken.needs_refresh (t : OAuthToken) (now : Int) : Bool :=
  decide (now + 300 ≥ t.expires_at)

/-- The token store's in-memory map, provider id → record
(`struct TokenStore`; the disk file mirrors this map). -/
def TokenStore := List (Str × OAuthToken)

/-- Embeds `TokenStore::save`: insert/replace by the token's `provider_id`. -/
def TokenStore.save (s : TokenStore) (t : OAuthToken) : TokenStore :=
  mapInsert t.provider_id t s

/-- Embeds `TokenStore::get`. -/
def TokenStore.get (s : TokenStore) (pid : Str) : Option OAuthToken :=
  mapLookup pid s

/-- The parsed body of a successful token-endpoint response
(`oauth.rs`, local `struct TokenResponse`). -/
structure TokenResponse where
  access_token : Str
  refresh_token : Str
  expires_in : Int
  deriving Repr, DecidableEq

/-- Outcome of the refresh POST, made explicit: a parsed 2xx body, a non-2xx
status with body text, or a transport/parse failure. -/
inductive TokenHttpOutcome where
  | success (r : TokenResponse) : TokenHttpOutcome
  | httpFailure (status : Nat) (body : Str) : TokenHttpOutcome
  | otherFailure (msg : Str) : TokenHttpOutcome
  deriving Repr, DecidableEq

/-- Errors of the OAuth client paths modelled here (`anyhow` errors in the
source, classified by the message they are built with). -/
inductive AuthFlowError where
  | noToken : AuthFlowError
  | refreshFailed (status : Nat) (body : Str) : AuthFlowError
  | transportOrParse (msg : Str) : AuthFlowError
  deriving Repr, DecidableEq

/-- Embeds `OAuthClient::refresh_token` (`src/auth/oauth.rs:188-243`):
requires an existing record; on a non-2xx response or transport failure,
error out without touching the store; on success, build the new record — new
`access_token`, `refresh_token` and `expires_at = now + expires_in`,
`enterprise_url` carried over from the existing record (those are ALL the
fields of `OAuthToken`) — and write it through.  Returns the result together
with the store's new state. -/
def refresh_token (store : TokenStore) (pid : Str) (outcome : TokenHttpOutcome)
    (now : Int) : Except AuthFlowError OAuthToken × TokenStore :=
  match store.get pid with
  | none => (.error .noToken, store)
  | some existing =>
      match outcome with
      | .otherFailure m => (.error (.transportOrParse m), store)
      | .httpFailure st body => (.error (.refreshFailed st body), store)
      | .success tr =>
          let tok : OAuthToken :=
            { provider_id := pid
              access_token := tr.access_token
              refresh_token := tr.refresh_token
              expires_at := now + tr.expires_in
              enterprise_url := existing.enterprise_url }
          (.ok tok, store.save tok)

/-- Embeds `OAuthClient::get_valid_token` (`src/auth/oauth.rs:245-256`):
stored access token when `¬needs_refresh()`, else refresh and return the new
access token. -/
def get_valid_token (store : TokenStore) (pid : Str) (outcome : TokenHttpOutcome)
    (now : Int) : Except AuthFlowError Str × TokenStore :=
  match store.get pid with
  | none => (.error .noToken, store)
  | some tok =>
      if tok.needs_refresh now then
        match refresh_token store pid outcome now with
        | (.ok t, store') => (.ok t.access_token, store')
        | (.error e, store') => (.error e, store')
      else (.ok tok.access_token, store)

/-! ## JSON text parsing (`serde_json::from_str`)

A fuel-driven recursive-descent parser for JSON text, following the JSON
grammar that `serde_json` implements (strict: control characters in strings
must be escaped, `\u` surrogate pairs must be well formed, numbers follow the
JSON number grammar, no trailing input).  Fuel `length + 1` always suffices
since every recursive call consumes at least one character. -/

/-- JSON insignificant whitespace. -/
def isJsonWs (c : Char) : Bool :=
  c = ' ' || c = '\t' || c = '\n' || c = '\r'

def skipWs : Str → Str
  | [] => []
  | c :: rest => if isJsonWs c then skipWs rest else c :: rest

def hexVal (c : Char) : Option Nat :=
  if '0' ≤ c ∧ c ≤ '9' then some (c.toNat - 48)
  else if 'a' ≤ c ∧ c ≤ 'f' then some (c.toNat - 87)
  else if 'A' ≤ c ∧ c ≤ 'F' then some (c.toNat - 55)
  else none

def parseHex4 : Str → Option (Nat × Str)
  | a :: b :: c :: d :: rest =>
      match hexVal a, hexVal b, hexVal c, hexVal d with
      | some va, some vb, some vc, some vd =>
          some (va * 4096 + vb * 256 + vc * 16 + vd, rest)
      | _, _, _, _ => none
  | _ => none

/-- Body of a JSON string after the opening quote: unescape until the closing
quote.  Fuel-driven; every step consumes input, so fuel `length + 1`
suffices (see `parseStringBody`). -/
def parseStringBodyFuel : Nat → Str → Option (Str × Str)
  | 0, _ => none
  | _ + 1, [] => none
  | _ + 1, '"' :: rest => some ([], rest)
  | fuel + 1, '\\' :: esc =>
      match esc with
      | [] => none
      | e :: rest =>
          if e = 'u' then
            match parseHex4 rest with
            | none => none
            | some (n, rest') =>
                if 0xD800 ≤ n ∧ n < 0xDC00 then
                  match rest' with
                  | '\\' :: 'u' :: rest'' =>
                      match parseHex4 rest'' with
                      | some (lo, rest''') =>
                          if 0xDC00 ≤ lo ∧ lo < 0xE000 then
                            (parseStringBodyFuel fuel rest''').map (fun sr =>
                              (Char.ofNat (0x10000 + (n - 0xD800) * 1024 + (lo - 0xDC00)) :: sr.1, sr.2))
                          else none
                      | none => none
                  | _ => none
                else if 0xDC00 ≤ n ∧ n < 0xE000 then none
                else (parseStringBodyFuel fuel rest').map (fun sr => (Char.ofNat n :: sr.1, sr.2))
          else
            let lit : Option Char :=
              if e = '"' then some '"'
              else if e = '\\' then some '\\'
              else if e = '/' then some '/'
              else if e = 'b' then some (Char.ofNat 8)
              else if e = 'f' then some (Char.ofNat 12)
              else if e = 'n' then some '\n'
              else if e = 'r' then some (Char.ofNat 13)
              else if e = 't' then some '\t'
              else none
            match lit with
            | some ch => (parseStringBodyFuel fuel rest).map (fun sr => (ch :: sr.1, sr.2))
            | none => none
  | fuel + 1, c :: rest =>
      if c.toNat < 0x20 then none
      else (parseStringBodyFuel fuel rest).map (fun sr => (c :: sr.1, sr.2))

/-- `parseStringBodyFuel` with enough fuel for its input. -/
def parseStringBody (s : Str) : Option (Str × Str) :=
  parseStringBodyFuel (s.length + 1) s

def isDigitCh (c : Char) : Bool := '0' ≤ c && c ≤ '9'

def takeDigits : Str → (List Nat × Str)
  | [] => ([], [])
  | c :: rest =>
      if isDigitCh c then
        let dr := takeDigits rest
        ((c.toNat - 48) :: dr.1, dr.2)
      else ([], c :: rest)

def digitsToNat (ds : List Nat) : Nat :=
  ds.foldl (fun acc d => acc * 10 + d) 0

/-- JSON number grammar: `-? int frac? exp?` with `int = 0 | [1-9][0-9]*`.
Returns the mantissa/exponent representation; the `float` flag is set
exactly when the literal has a fraction or exponent part (serde_json parses
such literals as `f64`), so e.g. `429e0` and `4.29e2` are floats while `429`
is an integer. -/
def parseNumber (s : Str) : Option (Json × Str) :=
  let (sign, s1) := match s with
    | '-' :: rest => ((-1 : Int), rest)
    | _ => ((1 : Int), s)
  match takeDigits s1 with
  | ([], _) => none
  | (intDs, s2) =>
      if intDs.length > 1 ∧ intDs.headI = 0 then none
      else
        let (fracDs, s3) :=
          match s2 with
          | '.' :: rest =>
              match takeDigits rest with
              | ([], _) => ([], '.' :: rest)
              | (ds, r) => (ds, r)
          | _ => ([], s2)
        if s2 ≠ s3 ∧ fracDs = [] then none
        else
          match s3 with
          | e :: rest =>
              if e = 'e' ∨ e = 'E' then
                let (esign, rest1) : Int × Str := match rest with
                  | '+' :: r => (1, r)
                  | '-' :: r => (-1, r)
                  | _ => (1, rest)
                match takeDigits rest1 with
                | ([], _) => none
                | (expDs, s4) =>
                    some (.num (sign * (digitsToNat (intDs ++ fracDs) : Int))
                               (esign * (digitsToNat expDs : Int) - (fracDs.length : Int))
                               true, s4)
              else
                some (.num (sign * (digitsToNat (intDs ++ fracDs) : Int))
                           (-(fracDs.length : Int)) (!fracDs.isEmpty), e :: rest)
          | [] =>
              some (.num (sign * (digitsToNat (intDs ++ fracDs) : Int))
                         (-(fracDs.length : Int)) (!fracDs.isEmpty), [])

/-- serde map insert while parsing an object: a duplicate key replaces the
earlier value. -/
def objInsert (k : Str) (v : Json) : List (Str × Json) → List (Str × Json)
  | [] => [(k, v)]
  | (k', v') :: rest => if k' = k then (k, v) :: rest else (k', v') :: objInsert k v rest

mutual

def parseValue : Nat → Str → Option (Json × Str)
  | 0, _ => none
  | _ + 1, [] => none
  | fuel + 1, c :: rest =>
      if c = 'n' then
        match c :: rest with
        | 'n' :: 'u' :: 'l' :: 'l' :: r => some (.null, r)
        | _ => none
      else if c = 't' then
        match c :: rest with
        | 't' :: 'r' :: 'u' :: 'e' :: r => some (.bool true, r)
        | _ => none
      else if c = 'f' then
        match c :: rest with
        | 'f' :: 'a' :: 'l' :: 's' :: 'e' :: r => some (.bool false, r)
        | _ => none
      else if c = '"' then
        (parseStringBody rest).map (fun sr => (.str sr.1, sr.2))
      else if c = '[' then
        match skipWs rest with
        | ']' :: r => some (.arr [], r)
        | r => (parseElems fuel r).map (fun er => (.arr er.1, er.2))
      else if c = '{' then
        match skipWs rest with
        | '}' :: r => some (.obj [], r)
        | r => (parseMembers fuel [] r).map (fun mr => (.obj mr.1, mr.2))
      else parseNumber (c :: rest)

def parseElems : Nat → Str → Option (List Json × Str)
  | 0, _ => none
  | fuel + 1, s =>
      match parseValue fuel s with
      | none => none
      | some (v, rest) =>
          match skipWs rest with
          | ',' :: r => (parseElems fuel (skipWs r)).map (fun er => (v :: er.1, er.2))
          | ']' :: r => some ([v], r)
          | _ => none

def parseMembers : Nat → List (Str × Json) → Str → Option (List (Str × Json) × Str)
  | 0, _, _ => none
  | fuel + 1, acc, s =>
      match s with
      | '"' :: rest =>
          match parseStringBody rest with
          | none => none
          | some (key, rest1) =>
              match skipWs rest1 with
              | ':' :: rest2 =>
                  match parseValue fuel (skipWs rest2) with
                  | none => none
                  | some (v, rest3) =>
                      match skipWs rest3 with
                      | ',' :: r => parseMembers fuel (objInsert key v acc) (skipWs r)
                      | '}' :: r => some (objInsert key v acc, r)
                      | _ => none
              | _ => none
      | _ => none

end

/-- Embeds `serde_json::from_str::<Value>`: one JSON value, optionally
surrounded by whitespace, consuming the whole input. -/
def json_from_str (s : Str) : Option Json :=
  match parseValue (s.length + 1) (skipWs s) with
  | some (j, rest) => if skipWs rest = [] then some j else none
  | none => none

/-! ## Gemini rate-limit retry (`src/providers/gemini.rs`) -/

/-- Provider errors (`src/providers/error.rs`), restricted to the variants
the embedded paths construct. -/
inductive ProviderError where
  | apiError (status : Nat) (message : Str) : ProviderError
  | authError (msg : Str) : ProviderError
  | configError (msg : Str) : ProviderError
  | requestError (msg : Str) : ProviderError
  deriving Repr, DecidableEq

/-- The outcome of Rust's `"...".parse::<f64>()`: a finite decimal value
`(-1)^neg * mantissa * 10 ^ exp10` held exactly, a signed infinity, or NaN
(the `f64` rounding of in-range decimals is idealized away — no embedded
computation depends on it). -/
inductive F64Val where
  | finite (neg : Bool) (mantissa : Nat) (exp10 : Int) : F64Val
  | inf (neg : Bool) : F64Val
  | nan : F64Val
  deriving Repr, DecidableEq

/-- Rust's `f64` parsing grammar as used on duration strings: an optional
`+`/`-` sign, then either `inf`/`infinity`/`nan` (matched
case-insensitively) or a decimal mantissa — `digits [. digits?] | . digits`
— with an optional `e`/`E` exponent.  (Hexadecimal floats are not part of
Rust's `FromStr` grammar.) -/
def parseF64 (s : Str) : Option F64Val :=
  let (neg, s1) : Bool × Str :=
    match s with
    | '+' :: rest => (false, rest)
    | '-' :: rest => (true, rest)
    | _ => (false, s)
  let low := s1.map Char.toLower
  if low = "inf".data ∨ low = "infinity".data then some (.inf neg)
  else if low = "nan".data then some .nan
  else
    match takeDigits s1 with
    | (intDs, s2) =>
        let (fracDs, s3) :=
          match s2 with
          | '.' :: rest =>
              match takeDigits rest with
              | (ds, r) => (ds, r)
          | _ => ([], s2)
        if intDs = [] ∧ fracDs = [] then none
        else
          let mant := digitsToNat (intDs ++ fracDs)
          match s3 with
          | [] => some (.finite neg mant (-(fracDs.length : Int)))
          | e :: rest =>
              if e = 'e' ∨ e = 'E' then
                let (esign, rest1) : Int × Str := match rest with
                  | '+' :: r => (1, r)
                  | '-' :: r => (-1, r)
                  | _ => (1, rest)
                match takeDigits rest1 with
                | ([], _) => none
                | (expDs, s4) =>
                    if s4 = [] then
                      some (.finite neg mant
                        (esign * (digitsToNat expDs : Int) - (fracDs.length : Int)))
                    else none
              else none

/-- Durations as whole nanoseconds — exactly the resolution of
`std::time::Duration`. -/
abbrev Duration := Nat

/-- `u64::MAX`. -/
def u64Max : Nat := 18446744073709551615

/-- `Duration::MAX` in nanoseconds (`u64::MAX` seconds + 999999999 ns). -/
def durationMaxNanos : Nat := u64Max * 1000000000 + 999999999

/-- `mantissa * 10 ^ exp10` truncated to a natural number (division
truncates, as an `f64 → u64` cast does on non-negative values). -/
def decTrunc (mantissa : Nat) (exp10 : Int) : Nat :=
  if 0 ≤ exp10 then mantissa * 10 ^ exp10.toNat
  else mantissa / 10 ^ (-exp10).toNat

/-- Embeds Rust's saturating `as u64` cast on a parsed `f64`: NaN and
anything below zero give 0, positive infinity (and any value beyond
`u64::MAX`) gives `u64::MAX`, finite non-negative values truncate. -/
def f64AsU64 : F64Val → Nat
  | .nan => 0
  | .inf neg => if neg then 0 else u64Max
  | .finite neg m e => if neg then 0 else min (decTrunc m e) u64Max

/-- Embeds `Duration::from_millis(ms as u64)` applied to a parsed `f64`
(total: `from_millis` cannot overflow `Duration`). -/
def durationFromMillisF64 (v : F64Val) : Duration :=
  f64AsU64 v * 1000000

/-- Embeds `Duration::from_secs_f64` on a parsed `f64`: PANICS (`none`) on
NaN, infinities, negative values (except negative zero) and values
overflowing `Duration`; otherwise the nanosecond count (exact for up to nine
fraction digits, which covers Google's duration strings; further digits
truncate, an idealization of the nearest-nanosecond rounding). -/
def durationFromSecsF64 : F64Val → Option Duration
  | .nan => none
  | .inf _ => none
  | .finite neg m e =>
      if neg ∧ m ≠ 0 then none
      else
        let nanos := decTrunc m (e + 9)
        if durationMaxNanos < nanos then none else some nanos

/-- `Duration::from_secs(10)`, the documented fallback. -/
def tenSeconds : Duration := 10000000000

/-- What one call of `parse_retry_delay` does to the program: produce a
delay hint (`Some` in Rust), produce none (`None` in Rust), or abort the
task (a panic raised inside `Duration::from_secs_f64`). -/
inductive DelayParse where
  | hint (d : Duration) : DelayParse
  | noHint : DelayParse
  | panicked : DelayParse
  deriving Repr, DecidableEq

/-- Embeds `parse_retry_delay` (`src/providers/gemini.rs:938-946`): try the
`ms` suffix first (`from_millis(ms as u64)`, total), then the `s` suffix
(`from_secs_f64`, which can panic); parse the rest as `f64`. -/
def parse_retry_delay (s : Str) : DelayParse :=
  match stripSuffixStr "ms".data s with
  | some msStr =>
      match parseF64 msStr with
      | some v => .hint (durationFromMillisF64 v)
      | none => .noHint
  | none =>
      match stripSuffixStr "s".data s with
      | some sStr =>
          match parseF64 sStr with
          | some v =>
              match durationFromSecsF64 v with
              | some d => .hint d
              | none => .panicked
          | none => .noHint
      | none => .noHint

/-- Error details (`enum GeminiErrorDetail`): internally tagged on `@type`;
unknown tags fall into `Unknown` via `#[serde(other)]`. -/
inductive GeminiErrorDetail where
  | retryInfo (retry_delay : Str) : GeminiErrorDetail
  | errorInfo (reason : Str) (domain : Str) (metadata : List (Str × Str)) : GeminiErrorDetail
  | unknown : GeminiErrorDetail
  deriving Repr, DecidableEq

/-- `struct GeminiError`: `code`, `message`, `status` required, `details`
defaulted. -/
structure GeminiError where
  code : Nat
  message : Str
  status : Str
  details : List GeminiErrorDetail
  deriving Repr, DecidableEq

/-- `struct GeminiErrorResponse`. -/
structure GeminiErrorResponse where
  error : GeminiError
  deriving Repr, DecidableEq

def retryInfoTag : Str := "type.googleapis.com/google.rpc.RetryInfo".data
def errorInfoTag : Str := "type.googleapis.com/google.rpc.ErrorInfo".data

/-- serde deserialization of a `HashMap<String, String>`: every field value
must be a JSON string. -/
def strMapOfFields : List (Str × Json) → Option (List (Str × Str))
  | [] => some []
  | (k, .str v) :: rest => (strMapOfFields rest).map (fun m => (k, v) :: m)
  | _ => none

/-- serde deserialization of one `GeminiErrorDetail` from its JSON object:
dispatch on the `@type` tag; a missing or ill-typed required field fails the
whole deserialization; an unrecognized tag is `Unknown`. -/
def geminiDetailFromJson (j : Json) : Option GeminiErrorDetail :=
  match jsonGet "@type".data j with
  | some (.str tag) =>
      if tag = retryInfoTag then
        match jsonGet "retryDelay".data j with
        | some (.str d) => some (.retryInfo d)
        | _ => none
      else if tag = errorInfoTag then
        match jsonGet "reason".data j, jsonGet "domain".data j with
        | some (.str r), some (.str d) =>
            match jsonGet "metadata".data j with
            | some (.obj fs) => (strMapOfFields fs).map (fun md => .errorInfo r d md)
            | some _ => none
            | none => some (.errorInfo r d [])
        | _, _ => none
      else some .unknown
  | _ => none

/-- serde deserialization of a list of details. -/
def geminiDetailsFromJson : List Json → Option (List GeminiErrorDetail)
  | [] => some []
  | j :: rest =>
      match geminiDetailFromJson j with
      | some d => (geminiDetailsFromJson rest).map (fun ds => d :: ds)
      | none => none

/-- serde deserialization of `GeminiErrorResponse` from a JSON value:
`error.code` must be a `u16` — an INTEGER number in range (serde_json
refuses to deserialize a float-syntax number such as `429e0` or `4.29e2`
into `u16`, hence the `float = false` requirement) — `error.message` and
`error.status` strings, `error.details` an array of details (empty when
absent). -/
def geminiErrorResponseFromJson (j : Json) : Option GeminiErrorResponse :=
  match jsonGet "error".data j with
  | some err =>
      match jsonGet "code".data err, jsonGet "message".data err, jsonGet "status".data err with
      | some (.num m e isflt), some (.str msg), some (.str st) =>
          if isflt = false ∧ e = 0 ∧ 0 ≤ m ∧ m ≤ 65535 then
            match jsonGet "details".data err with
            | some (.arr ds) =>
                (geminiDetailsFromJson ds).map (fun dets =>
                  ⟨⟨m.toNat, msg, st, dets⟩⟩)
            | some _ => none
            | none => some ⟨⟨m.toNat, msg, st, []⟩⟩
          else none
      | _, _, _ => none
  | none => none

/-- The first `for` loop of `extract_retry_delay`: return the delay of the
first `RetryInfo` whose `retryDelay` parses; a panic inside the parse
aborts. -/
def scanRetryInfo : List GeminiErrorDetail → DelayParse
  | [] => .noHint
  | .retryInfo rd :: rest =>
      match parse_retry_delay rd with
      | .hint d => .hint d
      | .panicked => .panicked
      | .noHint => scanRetryInfo rest
  | _ :: rest => scanRetryInfo rest

/-- The second `for` loop of `extract_retry_delay`: at the first `ErrorInfo`
with reason `RATE_LIMIT_EXCEEDED` and a domain containing
`cloudcode-pa.googleapis.com`, return its parseable
`metadata.quotaResetDelay`, or 10 seconds when it is absent or does not
parse; a panic inside the parse aborts. -/
def scanErrorInfo : List GeminiErrorDetail → DelayParse
  | [] => .noHint
  | .errorInfo reason domain md :: rest =>
      if reason = "RATE_LIMIT_EXCEEDED".data ∧
          containsSub "cloudcode-pa.googleapis.com".data domain then
        match mapLookup "quotaResetDelay".data md with
        | some quota =>
            match parse_retry_delay quota with
            | .hint d => .hint d
            | .panicked => .panicked
            | .noHint => .hint tenSeconds
        | none => .hint tenSeconds
      else scanErrorInfo rest
  | _ :: rest => scanErrorInfo rest

/-- Embeds `extract_retry_delay` (`src/providers/gemini.rs:949-981`): parse
the error body (an unparseable body yields no hint); scan `details` for a
`RetryInfo` whose `retryDelay` parses; failing that, run the `ErrorInfo`
scan.  A panic raised by `Duration::from_secs_f64` inside either scan
propagates. -/
def extract_retry_delay (error_text : Str) : DelayParse :=
  match (json_from_str error_text).bind geminiErrorResponseFromJson with
  | some resp =>
      match scanRetryInfo resp.error.details with
      | .hint d => .hint d
      | .panicked => .panicked
      | .noHint => scanErrorInfo resp.error.details
  | none => .noHint

/-- An upstream HTTP response observed by the retry loop. -/
structure HttpResp where
  status : Nat
  body : Str
  deriving Repr, DecidableEq

/-- Result of one invocation of the request closure (`reqwest` send). -/
inductive ReqResult where
  | ok (r : HttpResp) : ReqResult
  | err (msg : Str) : ReqResult
  deriving Repr, DecidableEq

/-- What one iteration of the loop decides. -/
inductive RetryStep where
  | finished (res : Except ProviderError HttpResp) : RetryStep
  | panicked : RetryStep
  | retryWith (body : Str) : RetryStep
  deriving Repr

/-- One iteration of the body of `GeminiProvider::handle_rate_limit_retry`
(`src/providers/gemini.rs:361-406`) up to the retry decision: a transport
error propagates (`?`); a 429 whose body yields a delay hint asks for a
retry (carrying the body); a 429 whose body yields no hint is surfaced as
`ApiError` immediately; a panic inside the delay extraction aborts; any
other response is returned. -/
def rateLimitProbe (request_fn : Nat → ReqResult) (attempt : Nat) : RetryStep :=
  match request_fn attempt with
  | .err m => .finished (.error (.requestError m))
  | .ok r =>
      if r.status = 429 then
        match extract_retry_delay r.body with
        | .hint _ => .retryWith r.body
        | .panicked => .panicked
        | .noHint => .finished (.error (.apiError 429 r.body))
      else .finished (.ok r)

/-- Embeds the loop of `GeminiProvider::handle_rate_limit_retry`.  The
request closure is the sequence of responses it would produce, indexed by
attempt number.  `budget` stands for `max_retries - retries`, so the loop
guard `retries < max_retries` is `budget > 0`: with budget left, a
retry-requested 429 sleeps and loops; with budget exhausted it is surfaced
as `ApiError 429`.  The outer `none` models a panic escaping the loop. -/
def handle_rate_limit_retry (request_fn : Nat → ReqResult) :
    Nat → Nat → Option (Except ProviderError HttpResp)
  | attempt, 0 =>
      match rateLimitProbe request_fn attempt with
      | .finished res => some res
      | .panicked => none
      | .retryWith body => some (.error (.apiError 429 body))
  | attempt, b + 1 =>
      match rateLimitProbe request_fn attempt with
      | .finished res => some res
      | .panicked => none
      | .retryWith _ => handle_rate_limit_retry request_fn (attempt + 1) b

/-- Both unary call sites pass `max_retries = 3`
(`src/providers/gemini.rs:492,575`). -/
def geminiMaxRetries : Nat := 3

/-- A Gemini unary send as seen by the retry wrapper (`none` = the task
panicked inside delay extraction). -/
def geminiUnarySend (request_fn : Nat → ReqResult) :
    Option (Except ProviderError HttpResp) :=
  handle_rate_limit_retry request_fn 0 geminiMaxRetries

/-! ## OpenAI adapter (`src/providers/openai.rs`) -/

/-- Value of one character of the URL-safe base64 alphabet
(`base64::engine::general_purpose::URL_SAFE_NO_PAD`). -/
def b64Val (c : Char) : Option Nat :=
  if 'A' ≤ c ∧ c ≤ 'Z' then some (c.toNat - 65)
  else if 'a' ≤ c ∧ c ≤ 'z' then some (c.toNat - 97 + 26)
  else if '0' ≤ c ∧ c ≤ '9' then some (c.toNat - 48 + 52)
  else if c = '-' then some 62
  else if c = '_' then some 63
  else none

/-- Embeds `URL_SAFE_NO_PAD.decode`: groups of four characters give three
bytes; a final group of two or three characters gives one or two bytes with
the discarded low bits required to be zero (the engine's default); a final
group of one character, padding, or any character outside the alphabet is an
error. -/
def b64urlDecode : Str → Option (List Nat)
  | [] => some []
  | [_] => none
  | [a, b] =>
      match b64Val a, b64Val b with
      | some va, some vb =>
          if vb % 16 = 0 then some [va * 4 + vb / 16] else none
      | _, _ => none
  | [a, b, c] =>
      match b64Val a, b64Val b, b64Val c with
      | some va, some vb, some vc =>
          if vc % 4 = 0 then some [va * 4 + vb / 16, (vb % 16) * 16 + vc / 4] else none
      | _, _, _ => none
  | a :: b :: c :: d :: rest =>
      match b64Val a, b64Val b, b64Val c, b64Val d with
      | some va, some vb, some vc, some vd =>
          (b64urlDecode rest).map (fun bs =>
            (va * 4 + vb / 16) :: ((vb % 16) * 16 + vc / 4) :: ((vc % 4) * 64 + vd) :: bs)
      | _, _, _, _ => none

/-- Is a UTF-8 continuation byte. -/
def isCont (b : Nat) : Bool := 0x80 ≤ b && b < 0xC0

/-- Embeds `String::from_utf8` (strict UTF-8: overlong encodings, surrogates
and out-of-range code points are rejected). -/
def utf8Decode : List Nat → Option Str
  | [] => some []
  | b0 :: rest =>
      if b0 < 0x80 then
        (utf8Decode rest).map (fun s => Char.ofNat b0 :: s)
      else if 0xC2 ≤ b0 ∧ b0 ≤ 0xDF then
        match rest with
        | b1 :: rest' =>
            if isCont b1 then
              (utf8Decode rest').map (fun s =>
                Char.ofNat ((b0 - 0xC0) * 64 + (b1 - 0x80)) :: s)
            else none
        | _ => none
      else if 0xE0 ≤ b0 ∧ b0 ≤ 0xEF then
        match rest with
        | b1 :: b2 :: rest' =>
            let okB1 :=
              if b0 = 0xE0 then 0xA0 ≤ b1 ∧ b1 ≤ 0xBF
              else if b0 = 0xED then 0x80 ≤ b1 ∧ b1 ≤ 0x9F
              else isCont b1
            if okB1 ∧ isCont b2 then
              (utf8Decode rest').map (fun s =>
                Char.ofNat ((b0 - 0xE0) * 4096 + (b1 - 0x80) * 64 + (b2 - 0x80)) :: s)
            else none
        | _ => none
      else if 0xF0 ≤ b0 ∧ b0 ≤ 0xF4 then
        match rest with
        | b1 :: b2 :: b3 :: rest' =>
            let okB1 :=
              if b0 = 0xF0 then 0x90 ≤ b1 ∧ b1 ≤ 0xBF
              else if b0 = 0xF4 then 0x80 ≤ b1 ∧ b1 ≤ 0x8F
              else isCont b1
            if okB1 ∧ isCont b2 ∧ isCont b3 then
              (utf8Decode rest').map (fun s =>
                Char.ofNat ((b0 - 0xF0) * 262144 + (b1 - 0x80) * 4096 +
                  (b2 - 0x80) * 64 + (b3 - 0x80)) :: s)
            else none
        | _ => none
      else none

/-- Test scaffolding (not from the source): URL-safe base64 encoding without
padding, used to build concrete JWTs for witnesses. -/
def b64Char (v : Nat) : Char :=
  if v < 26 then Char.ofNat (65 + v)
  else if v < 52 then Char.ofNat (97 + v - 26)
  else if v < 62 then Char.ofNat (48 + v - 52)
  else if v = 62 then '-'
  else '_'

/-- Test scaffolding (not from the source): `URL_SAFE_NO_PAD.encode`. -/
def b64urlEncode : List Nat → Str
  | [] => []
  | [x] => [b64Char (x / 4), b64Char (x % 4 * 16)]
  | [x, y] => [b64Char (x / 4), b64Char (x % 4 * 16 + y / 16), b64Char (y % 16 * 4)]
  | x :: y :: z :: rest =>
      b64Char (x / 4) :: b64Char (x % 4 * 16 + y / 16) ::
      b64Char (y % 16 * 4 + z / 64) :: b64Char (z % 64) :: b64urlEncode rest

/-- Test scaffolding (not from the source): the bytes of an ASCII string. -/
def asciiBytes (s : Str) : List Nat := s.map Char.toNat

/-- Embeds `OpenAIProvider::extract_account_id`
(`src/providers/openai.rs:557-576`): split the access token on `'.'`; it
must have exactly three segments; base64url-decode the middle segment,
interpret it as UTF-8 JSON, and read the string claim
`https://api.openai.com/auth` → `chatgpt_account_id`.  Every failure returns
`none` (the function is total — it cannot abort). -/
def extract_account_id (access_token : Str) : Option Str :=
  match splitChar '.' access_token with
  | [_header, payload, _sig] =>
      ((((b64urlDecode payload).bind utf8Decode).bind json_from_str).bind
        (jsonGet "https://api.openai.com/auth".data)).bind
        (fun auth => (jsonGet "chatgpt_account_id".data auth).bind jsonAsStr)
  | _ => none

/-- The Codex-specific headers attached when (and only when) the account id
was extracted (`src/providers/openai.rs:877-893`). -/
def codexExtraHeaders (account_id : Str) : List (Str × Str) :=
  [("chatgpt-account-id".data, account_id),
   ("OpenAI-Beta".data, "responses=experimental".data),
   ("originator".data, "codex_cli_rs".data),
   ("User-Agent".data, ("Mozilla/5.0 (Macintosh; Intel Mac OS X 10_15_7) " ++
      "AppleWebKit/537.36 (KHTML, like Gecko) Chrome/131.0.0.0 Safari/537.36").data),
   ("Origin".data, "https://chatgpt.com".data),
   ("Referer".data, "https://chatgpt.com/".data),
   ("sec-ch-ua".data, "\"Google Chrome\";v=\"131\", \"Chromium\";v=\"131\", \"Not_A Brand\";v=\"24\"".data),
   ("sec-ch-ua-mobile".data, "?0".data),
   ("sec-ch-ua-platform".data, "\"macOS\"".data),
   ("sec-fetch-dest".data, "empty".data),
   ("sec-fetch-mode".data, "cors".data),
   ("sec-fetch-site".data, "same-origin".data)]

/-- The base headers of the OAuth Codex request
(`src/providers/openai.rs:869-873`). -/
def codexBaseHeaders (auth_value : Str) : List (Str × Str) :=
  [("Authorization".data, "Bearer ".data ++ auth_value),
   ("Content-Type".data, "application/json".data),
   ("accept".data, "text/event-stream".data)]

/-- The header set the OAuth Codex send path assembles: base headers always;
the Codex-specific set only under `if let Some(account_id) = ...` — when
extraction fails the extra headers are simply skipped. -/
def codexHeaderStep (auth_value : Str) : List (Str × Str) :=
  codexBaseHeaders auth_value ++
    (match extract_account_id auth_value with
     | some id => codexExtraHeaders id
     | none => [])

/-- Embeds the header-assembly segment of `OpenAIProvider::send_message`
(`src/providers/openai.rs:869-899`) as a fallible step: the source contains
no error return in this segment, so the result is always `ok` — extraction
failure does NOT surface an `AuthError`. -/
def oauthCodexPrepare (auth_value : Str) : Except ProviderError (List (Str × Str)) :=
  .ok (codexHeaderStep auth_value)

/-- Canonical usage (`src/providers/mod.rs`, `struct Usage`). -/
structure Usage where
  input_tokens : Nat
  output_tokens : Nat
  deriving Repr, DecidableEq

/-- Canonical provider response (`src/providers/mod.rs`,
`struct ProviderResponse`). -/
structure ProviderResponse where
  id : Str
  type : Str
  role : Str
  content : List ContentBlock
  model : Str
  stop_reason : Option Str
  stop_sequence : Option Str
  usage : Usage
  deriving Repr

/-- OpenAI content part (`enum OpenAIContentPart`). -/
inductive OpenAIContentPart where
  | text (text : Str) : OpenAIContentPart
  | imageUrl (url : Str) : OpenAIContentPart
  deriving Repr, DecidableEq

/-- OpenAI message content (`enum OpenAIContent`). -/
inductive OpenAIContent where
  | string (s : Str) : OpenAIContent
  | parts (ps : List OpenAIContentPart) : OpenAIContent
  deriving Repr, DecidableEq

/-- Function-call payload of a tool call (`struct OpenAIFunctionCall`). -/
structure OpenAIFunctionCall where
  name : Str
  arguments : Str
  deriving Repr, DecidableEq

/-- A tool call (`struct OpenAIToolCall`). -/
structure OpenAIToolCall where
  id : Str
  type : Str
  function : OpenAIFunctionCall
  deriving Repr, DecidableEq

/-- An OpenAI chat message (`struct OpenAIMessage`). -/
structure OpenAIMessage where
  role : Str
  content : Option OpenAIContent
  reasoning : Option Str
  tool_calls : Option (List OpenAIToolCall)
  tool_call_id : Option Str
  deriving Repr, DecidableEq

/-- One choice of a chat-completions response (`struct OpenAIChoice`). -/
structure OpenAIChoice where
  message : OpenAIMessage
  finish_reason : Option Str
  deriving Repr, DecidableEq

/-- Usage of a chat-completions response (`struct OpenAIUsage`). -/
structure OpenAIUsage where
  prompt_tokens : Nat
  completion_tokens : Nat
  total_tokens : Nat
  deriving Repr, DecidableEq

/-- A chat-completions response (`struct OpenAIResponse`). -/
structure OpenAIResponse where
  id : Str
  object : Str
  model : Str
  choices : List OpenAIChoice
  usage : OpenAIUsage
  deriving Repr, DecidableEq

/-- Embeds `OpenAIProvider::transform_response`
(`src/providers/openai.rs:755-799`).  The Rust function panics on an empty
`choices` array (`.next().expect("OpenAI response must have at least one
choice")`); the panic is modelled as `none`.  Otherwise: take the first
choice; the text comes from its string content, or the newline-join of its
text parts, or the `reasoning` fallback, or is empty; `stop_reason` is the
choice's `finish_reason` verbatim; usage copies the prompt/completion token
counts. -/
def transform_response (response : OpenAIResponse) : Option ProviderResponse :=
  match response.choices with
  | [] => none
  | choice :: _ =>
      let text : Str :=
        match choice.message.content with
        | some (.string s) => s
        | some (.parts ps) =>
            joinNewline (ps.filterMap (fun p =>
              match p with
              | .text t => some t
              | _ => none))
        | none =>
            match choice.message.reasoning with
            | some r => r
            | none => []
      some
        { id := response.id
          type := "message".data
          role := "assistant".data
          content := [.text text]
          model := response.model
          stop_reason := choice.finish_reason
          stop_sequence := none
          usage := { input_tokens := response.usage.prompt_tokens
                     output_tokens := response.usage.completion_tokens } }

/-! ## Concrete instances used by witnesses and counterexamples -/

/-- A minimal canonical request (the router tests' `create_simple_request`). -/
def baseRequest : AnthropicRequest :=
  { model := "claude-opus-4".data
    messages := [{ role := "user".data, content := .text "hi".data }]
    max_tokens := 1024
    thinking := none
    temperature := none
    top_p := none
    top_k := none
    stop_sequences := none
    stream := none
    metadata := none
    system := none
    tools := none }

/-- The router tests' configuration (`create_test_config`), with the default
matchers `Router::new` compiles for absent patterns. -/
def testRouter : Router :=
  { config :=
      { default := "default.model".data
        background := some "background.model".data
        think := some "think.model".data
        websearch := some "websearch.model".data
        auto_map_regex := none
        background_regex := none }
    auto_map_regex := some defaultAutoMapRegex
    background_regex := some defaultBackgroundRegex }

/-- A web-search tool entry (`type = "web_search_2025_04"`). -/
def webSearchTool : Tool :=
  { type := some "web_search_2025_04".data
    name := some "web_search".data
    description := none
    input_schema := none }

/-- Block text on which tag removal splices a NEW tag together from
fragments: the single regex match is `<CCM-SUBAGENT-MODEL>a</CCM-SUBAGENT-MODEL>`
(name `a`), and deleting it joins `<CCM-SUBAGENT` with `-MODEL>b</CCM-SUBAGENT-MODEL>`
into a fresh, complete tag naming `b`. -/
def spliceText : Str :=
  "<CCM-SUBAGENT<CCM-SUBAGENT-MODEL>a</CCM-SUBAGENT-MODEL>-MODEL>b</CCM-SUBAGENT-MODEL>".data

/-- A router without a websearch model, so the subagent rule is reached
(matching `create_test_config` otherwise). -/
def noWebsearchRouter : Router :=
  { config :=
      { default := "default.model".data
        background := none
        think := none
        websearch := none
        auto_map_regex := none
        background_regex := none }
    auto_map_regex := some defaultAutoMapRegex
    background_regex := some defaultBackgroundRegex }

/-- The request whose second system block is `spliceText`. -/
def spliceRequest : AnthropicRequest :=
  { baseRequest with
      model := "m".data
      system := some (.blocks [⟨"first block".data⟩, ⟨spliceText⟩]) }

/-- The spec's scenario-4 subagent block text. -/
def subagentScenarioText : Str :=
  "Context.\n<CCM-SUBAGENT-MODEL>gpt-4o</CCM-SUBAGENT-MODEL>\nMore.".data

/-- The spec's scenario-4 request. -/
def subagentScenarioRequest : AnthropicRequest :=
  { baseRequest with
      model := "m".data
      system := some (.blocks [⟨"You are Claude.".data⟩, ⟨subagentScenarioText⟩]) }

/-- Provider config `A` (enabled, api-key, known type, no declared models). -/
def providerA : ProviderConfig :=
  { name := "A".data
    provider_type := "openai".data
    auth_type := .apiKey
    api_key := some "key-a".data
    oauth_provider := none
    project_id := none
    location := none
    base_url := none
    models := []
    enabled := some true }

/-- Provider config `B` (enabled, api-key, known type, one declared model). -/
def providerB : ProviderConfig :=
  { providerA with
      name := "B".data
      api_key := some "key-b".data
      models := ["seeded-model".data] }

/-- A `[[models]]` entry for model `m` whose TOP-priority mapping (priority 1)
targets provider `A` while its LAST-listed mapping (priority 2) targets
provider `B`. -/
def mappedModelConfig : ModelConfig :=
  { name := "m".data
    mappings :=
      [{ priority := 1, provider := "A".data, actual_model := "x".data },
       { priority := 2, provider := "B".data, actual_model := "y".data }] }

/-- A stored OAuth record used by the token-store witnesses. -/
def storedToken : OAuthToken :=
  { provider_id := "claude-max".data
    access_token := "old-access".data
    refresh_token := "old-refresh".data
    expires_at := 1000
    enterprise_url := some "https://ghe.example".data }

/-- The store holding exactly `storedToken`. -/
def storedStore : TokenStore := [("claude-max".data, storedToken)]

/-- A parsed refresh response. -/
def freshResponse : TokenResponse :=
  { access_token := "new-access".data
    refresh_token := "new-refresh".data
    expires_in := 3600 }

/-- A 429 body carrying a parseable `RetryInfo` delay. -/
def retryBody : Str :=
  "\x7b\"error\":\x7b\"code\":429,\"message\":\"quota\",\"status\":\"RESOURCE_EXHAUSTED\",\"details\":[\x7b\"@type\":\"type.googleapis.com/google.rpc.RetryInfo\",\"retryDelay\":\"7s\"\x7d]\x7d\x7d".data

/-- A 429 body carrying a matching `ErrorInfo` but no `RetryInfo`. -/
def errorInfoBody : Str :=
  "\x7b\"error\":\x7b\"code\":429,\"message\":\"quota\",\"status\":\"RESOURCE_EXHAUSTED\",\"details\":[\x7b\"@type\":\"type.googleapis.com/google.rpc.ErrorInfo\",\"reason\":\"RATE_LIMIT_EXCEEDED\",\"domain\":\"cloudcode-pa.googleapis.com\"\x7d]\x7d\x7d".data

/-- A 429 body carrying both detail kinds, `ErrorInfo` first in the array, so
precedence is observable. -/
def bothDetailsBody : Str :=
  "\x7b\"error\":\x7b\"code\":429,\"message\":\"quota\",\"status\":\"RESOURCE_EXHAUSTED\",\"details\":[\x7b\"@type\":\"type.googleapis.com/google.rpc.ErrorInfo\",\"reason\":\"RATE_LIMIT_EXCEEDED\",\"domain\":\"cloudcode-pa.googleapis.com\",\"metadata\":\x7b\"quotaResetDelay\":\"900ms\"\x7d\x7d,\x7b\"@type\":\"type.googleapis.com/google.rpc.RetryInfo\",\"retryDelay\":\"2s\"\x7d]\x7d\x7d".data

/-- A 429 body whose matching `ErrorInfo` carries a parseable
`metadata.quotaResetDelay`. -/
def quotaBody : Str :=
  "\x7b\"error\":\x7b\"code\":429,\"message\":\"quota\",\"status\":\"RESOURCE_EXHAUSTED\",\"details\":[\x7b\"@type\":\"type.googleapis.com/google.rpc.ErrorInfo\",\"reason\":\"RATE_LIMIT_EXCEEDED\",\"domain\":\"cloudcode-pa.googleapis.com\",\"metadata\":\x7b\"quotaResetDelay\":\"900ms\"\x7d\x7d]\x7d\x7d".data

/-- A 429 body whose `code` uses float syntax (`429e0`): serde_json parses
it as an `f64` and refuses to deserialize it into the `u16` field, so the
program treats the whole body as unparseable even though a `RetryInfo` hint
is present. -/
def floatCodeBody : Str :=
  "\x7b\"error\":\x7b\"code\":429e0,\"message\":\"quota\",\"status\":\"RESOURCE_EXHAUSTED\",\"details\":[\x7b\"@type\":\"type.googleapis.com/google.rpc.RetryInfo\",\"retryDelay\":\"7s\"\x7d]\x7d\x7d".data

/-- A 429 body whose `RetryInfo` carries `retryDelay = "-5s"`: Rust's `f64`
parse accepts `-5`, and `Duration::from_secs_f64(-5.0)` panics. -/
def panicDelayBody : Str :=
  "\x7b\"error\":\x7b\"code\":429,\"message\":\"quota\",\"status\":\"RESOURCE_EXHAUSTED\",\"details\":[\x7b\"@type\":\"type.googleapis.com/google.rpc.RetryInfo\",\"retryDelay\":\"-5s\"\x7d]\x7d\x7d".data

/-- The spec's scenario-5 input schema. -/
def scenarioSchema : Json :=
  .obj [("$schema".data, .str "X".data),
        ("type".data, .str "object".data),
        ("properties".data, .obj
          [("a".data, .obj [("$ref".data, .str "#/defs/A".data),
                            ("type".data, .str "string".data)])])]

/-- The spec's scenario-5 expected output. -/
def scenarioSchemaClean : Json :=
  .obj [("type".data, .str "object".data),
        ("properties".data, .obj
          [("a".data, .obj [("type".data, .str "string".data)])])]

/-- A syntactically valid JWT whose payload carries the ChatGPT account-id
claim. -/
def validJwt : Str :=
  "h.".data ++
    b64urlEncode (asciiBytes
      "\x7b\"https://api.openai.com/auth\":\x7b\"chatgpt_account_id\":\"acct-123\"\x7d\x7d".data) ++
    ".sig".data

/-- A chat-completions response with one choice. -/
def oneChoiceResponse : OpenAIResponse :=
  { id := "chatcmpl-1".data
    object := "chat.completion".data
    model := "gpt-4o".data
    choices :=
      [{ message :=
           { role := "assistant".data
             content := some (.string "hello".data)
             reasoning := none
             tool_calls := none
             tool_call_id := none }
         finish_reason := some "stop".data }]
    usage := { prompt_tokens := 12, completion_tokens := 5, total_tokens := 17 } }

/-- The same response with zero choices (a 200 body such as
`{"id":"x","model":"m","choices":[],"usage":{...}}` parses fine). -/
def zeroChoicesResponse : OpenAIResponse :=
  { oneChoiceResponse with choices := [] }

/-! ## Theorems -/

set_option maxRecDepth 16000

/-! ### Supporting lemmas for the schema cleaner -/

mutual

theorem clean_nf : (j : Json) → hasForbiddenKey (clean_json_schema j) = false
  | .null => rfl
  | .bool _ => rfl
  | .num _ _ _ => rfl
  | .str _ => rfl
  | .obj fields => by
      simp only [clean_json_schema, hasForbiddenKey]
      exact cleanFields_nf fields
  | .arr elems => by
      simp only [clean_json_schema, hasForbiddenKey]
      exact cleanElems_nf elems

theorem cleanFields_nf : (fs : List (Str × Json)) →
    fieldsHaveForbidden (cleanFields fs) = false
  | [] => rfl
  | (k, v) :: rest => by
      simp only [cleanFields]
      by_cases hk : forbiddenKeys.contains k
      · simp only [hk, if_true]
        exact cleanFields_nf rest
      · simp only [hk, if_false, fieldsHaveForbidden]
        simp [hk, clean_nf v, cleanFields_nf rest]

theorem cleanElems_nf : (es : List Json) → elemsHaveForbidden (cleanElems es) = false
  | [] => rfl
  | e :: rest => by
      simp only [cleanElems, elemsHaveForbidden]
      simp [clean_nf e, cleanElems_nf rest]

end

mutual

theorem clean_id_of_nf : (j : Json) → hasForbiddenKey j = false → clean_json_schema j = j
  | .null, _ => rfl
  | .bool _, _ => rfl
  | .num _ _ _, _ => rfl
  | .str _, _ => rfl
  | .obj fields, h => by
      simp only [hasForbiddenKey] at h
      simp only [clean_json_schema]
      rw [cleanFields_id_of_nf fields h]
  | .arr elems, h => by
      simp only [hasForbiddenKey] at h
      simp only [clean_json_schema]
      rw [cleanElems_id_of_nf elems h]

theorem cleanFields_id_of_nf : (fs : List (Str × Json)) →
    fieldsHaveForbidden fs = false → cleanFields fs = fs
  | [], _ => rfl
  | (k, v) :: rest, h => by
      simp only [fieldsHaveForbidden, Bool.or_eq_false_iff] at h
      obtain ⟨⟨hk, hv⟩, hrest⟩ := h
      simp only [cleanFields, hk, if_false]
      rw [clean_id_of_nf v hv, cleanFields_id_of_nf rest hrest]
      simp

theorem cleanElems_id_of_nf : (es : List Json) →
    elemsHaveForbidden es = false → cleanElems es = es
  | [], _ => rfl
  | e :: rest, h => by
      simp only [elemsHaveForbidden, Bool.or_eq_false_iff] at h
      simp only [cleanElems]
      rw [clean_id_of_nf e h.1, cleanElems_id_of_nf rest h.2]

end

theorem cleanFields_keys : (fs : List (Str × Json)) →
    (cleanFields fs).map Prod.fst
      = (fs.filter (fun kv => !forbiddenKeys.contains kv.1)).map Prod.fst
  | [] => rfl
  | (k, v) :: rest => by
      by_cases hk : k ∈ forbiddenKeys
      · simp [cleanFields, hk, List.filter_cons, cleanFields_keys rest]
      · simp [cleanFields, hk, List.filter_cons, cleanFields_keys rest]

/-- C8: for every JSON value given to the Gemini schema cleaner, the output
contains none of the keys `$schema`, `$id`, `$ref`, `$comment`,
`exclusiveMinimum`, `exclusiveMaximum`, `definitions`, `$defs` at any nesting
depth (including objects nested inside arrays); everything else is preserved:
a value already free of forbidden keys passes through unchanged, and an
object keeps exactly its non-forbidden keys, in order. -/
theorem clean_json_schema_spec :
    (∀ j, hasForbiddenKey (clean_json_schema j) = false) ∧
    (∀ j, hasForbiddenKey j = false → clean_json_schema j = j) ∧
    (∀ fields, (cleanFields fields).map Prod.fst
        = (fields.filter (fun kv => !forbiddenKeys.contains kv.1)).map Prod.fst) :=
  ⟨clean_nf, clean_id_of_nf, cleanFields_keys⟩

/-- C8 witness: the theorem applied to the spec's scenario-5 schema; the
cleaned value has no forbidden key, and cleaning its (already clean) expected
output is the identity — which is indeed the cleaner's output on the
scenario. -/
theorem clean_json_schema_spec_witness :
    hasForbiddenKey (clean_json_schema scenarioSchema) = false ∧
    clean_json_schema scenarioSchemaClean = scenarioSchemaClean ∧
    clean_json_schema scenarioSchema = scenarioSchemaClean :=
  ⟨clean_json_schema_spec.1 scenarioSchema,
   clean_json_schema_spec.2.1 scenarioSchemaClean (by rfl),
   by rfl⟩

/-- C10: the OpenAI-Chat response translation is total only when the upstream
`choices` array is non-empty — an empty `choices` hits the
`expect`-assertion (modelled as `none`), so a 200 response with zero choices
panics instead of yielding a typed error; with at least one choice the first
choice is used and `stop_reason` is its `finish_reason` verbatim. -/
theorem transform_response_spec :
    (∀ r : OpenAIResponse, transform_response r = none ↔ r.choices = []) ∧
    (∀ (r : OpenAIResponse) (c : OpenAIChoice) (cs : List OpenAIChoice),
      r.choices = c :: cs →
      ∃ resp, transform_response r = some resp ∧
        resp.stop_reason = c.finish_reason ∧
        resp.usage = ⟨r.usage.prompt_tokens, r.usage.completion_tokens⟩ ∧
        resp.id = r.id ∧ resp.model = r.model) := by
  constructor
  · intro r
    unfold transform_response
    cases h : r.choices with
    | nil => simp
    | cons c cs => simp
  · intro r c cs h
    unfold transform_response
    rw [h]
    exact ⟨_, rfl, rfl, rfl, rfl, rfl⟩

/-- C10 witness: at the concrete one-choice response the theorem yields the
`stop`-reason passthrough, and the zero-choice variant of the same response
is exactly the panicking case. -/
theorem transform_response_spec_witness :
    (transform_response zeroChoicesResponse = none) ∧
    (∃ resp, transform_response oneChoiceResponse = some resp ∧
      resp.stop_reason = some "stop".data ∧
      resp.usage = ⟨12, 5⟩) := by
  refine ⟨(transform_response_spec.1 zeroChoicesResponse).mpr (by rfl), ?_⟩
  obtain ⟨resp, h1, h2, h3, -⟩ :=
    transform_response_spec.2 oneChoiceResponse _ _ (by rfl)
  exact ⟨resp, h1, h2, h3⟩

/-- C5: with a stored record, `valid_access_token` returns the stored access
token (leaving the store untouched) exactly when `now + 5 min < expires_at`,
i.e. when `needs_refresh()` is false; otherwise it refreshes, returning the
newly obtained access token and writing the refreshed record through; and
`needs_refresh()` holds exactly when `now + 5 min ≥ expires_at`. -/
theorem valid_access_token_spec (store : TokenStore) (pid : Str) (tok : OAuthToken)
    (outcome : TokenHttpOutcome) (now : Int)
    (hget : store.get pid = some tok) :
    (tok.needs_refresh now = true ↔ now + 300 ≥ tok.expires_at) ∧
    (now + 300 < tok.expires_at →
      get_valid_token store pid outcome now = (.ok tok.access_token, store)) ∧
    (now + 300 ≥ tok.expires_at → ∀ tr, outcome = .success tr →
      get_valid_token store pid outcome now =
        (.ok tr.access_token,
         store.save { provider_id := pid
                      access_token := tr.access_token
                      refresh_token := tr.refresh_token
                      expires_at := now + tr.expires_in
                      enterprise_url := tok.enterprise_url })) := by
  refine ⟨by simp [OAuthToken.needs_refresh], ?_, ?_⟩
  · intro hlt
    unfold get_valid_token
    rw [hget]
    have : tok.needs_refresh now = false := by
      simp [OAuthToken.needs_refresh]; omega
    simp [this]
  · intro hge tr houtcome
    subst houtcome
    unfold get_valid_token
    rw [hget]
    have : tok.needs_refresh now = true := by
      simp [OAuthToken.needs_refresh]; omega
    simp only [this, if_true]
    unfold refresh_token
    rw [hget]

/-- C5 witness: at the concrete stored record (`expires_at = 1000`), the
fresh branch at `now = 600` and the refreshing branch at `now = 800`. -/
theorem valid_access_token_spec_witness :
    (get_valid_token storedStore "claude-max".data (.success freshResponse) 600
      = (.ok "old-access".data, storedStore)) ∧
    ((get_valid_token storedStore "claude-max".data (.success freshResponse) 800).1
      = .ok "new-access".data) := by
  have h600 := valid_access_token_spec storedStore "claude-max".data storedToken
    (.success freshResponse) 600 (by rfl)
  have h800 := valid_access_token_spec storedStore "claude-max".data storedToken
    (.success freshResponse) 800 (by rfl)
  refine ⟨?_, ?_⟩
  · have := h600.2.1 (by decide)
    simpa [storedToken] using this
  · have := h800.2.2 (by decide) freshResponse rfl
    rw [this]
    rfl

/-- C6: `refresh_token` requires an existing record; on success the
written-back record keeps `enterprise_url` from the previous record while
`access_token`, `refresh_token` and `expires_at` are replaced (those five
fields are ALL the fields the stored record has — it carries no
`project_id`); on a non-2xx response or a transport failure nothing is
deleted: the store is returned unchanged and still holds the previous
record. -/
theorem refresh_token_frame_spec (store : TokenStore) (pid : Str)
    (existing : OAuthToken) (outcome : TokenHttpOutcome) (now : Int)
    (hget : store.get pid = some existing) :
    (∀ tr, outcome = .success tr →
      refresh_token store pid outcome now =
        (.ok { provider_id := pid
               access_token := tr.access_token
               refresh_token := tr.refresh_token
               expires_at := now + tr.expires_in
               enterprise_url := existing.enterprise_url },
         store.save { provider_id := pid
                      access_token := tr.access_token
                      refresh_token := tr.refresh_token
                      expires_at := now + tr.expires_in
                      enterprise_url := existing.enterprise_url })) ∧
    (∀ st body, outcome = .httpFailure st body →
      refresh_token store pid outcome now = (.error (.refreshFailed st body), store) ∧
      store.get pid = some existing) ∧
    (∀ msg, outcome = .otherFailure msg →
      refresh_token store pid outcome now = (.error (.transportOrParse msg), store)) := by
  refine ⟨?_, ?_, ?_⟩
  · intro tr h
    subst h
    unfold refresh_token
    rw [hget]
  · intro st body h
    subst h
    unfold refresh_token
    rw [hget]
    exact ⟨rfl, rfl⟩
  · intro msg h
    subst h
    unfold refresh_token
    rw [hget]

/-- C6 witness: at the concrete store, a successful refresh carries the
`enterprise_url` over, and an HTTP 400 failure leaves the store exactly as it
was, record included. -/
theorem refresh_token_frame_spec_witness :
    ((refresh_token storedStore "claude-max".data (.success freshResponse) 800).1
      = .ok { provider_id := "claude-max".data
              access_token := "new-access".data
              refresh_token := "new-refresh".data
              expires_at := 4400
              enterprise_url := some "https://ghe.example".data }) ∧
    (refresh_token storedStore "claude-max".data (.httpFailure 400 "bad".data) 800
      = (.error (.refreshFailed 400 "bad".data), storedStore)) ∧
    (storedStore.get "claude-max".data = some storedToken) := by
  have h := refresh_token_frame_spec storedStore "claude-max".data storedToken
    (.success freshResponse) 800 (by rfl)
  have hfail := refresh_token_frame_spec storedStore "claude-max".data storedToken
    (.httpFailure 400 "bad".data) 800 (by rfl)
  refine ⟨?_, ?_, by rfl⟩
  · rw [h.1 freshResponse rfl]
    rfl
  · exact (hfail.2.1 400 "bad".data rfl).1

/-- C7: Gemini unary sends run inside a retry loop bounded at 3 retries
keyed on HTTP 429: (i) when every attempt returns a 429 whose body yields a
delay hint, the fourth response (after exactly 3 retries) is surfaced as a
typed `ApiError` rather than retried further; (ii) a 429 whose body yields
no parseable hint is surfaced immediately as `ApiError`; (iii) non-429
responses pass through; (iv) a delay extraction that panics (inside
`Duration::from_secs_f64`) aborts the task; (v–x) the delay derivation on
concrete bodies: a `RetryInfo` `retryDelay` of form `<number>s`/`<number>ms`
is used and takes precedence over `ErrorInfo`; a matching `ErrorInfo` yields
its parseable `metadata.quotaResetDelay` or 10 seconds without one; an
unparseable body — including one whose `code` uses float syntax, which
serde rejects for `u16` — yields no hint; (xi–xviii) the duration grammar
follows Rust's `f64` parse exactly: signed strings parse (`+7s` is a hint;
`-5ms`/`nanms` hit the saturating `as u64` cast and give a 0 hint; `infms`
saturates to `u64::MAX` milliseconds), while `-5s`/`infs`/`nans` panic in
`from_secs_f64`. -/
theorem gemini_rate_limit_retry_spec :
    (∀ (f : Nat → ReqResult) (bodies : Nat → Str),
      (∀ n, n ≤ 3 → f n = .ok ⟨429, bodies n⟩) →
      (∀ n, n ≤ 3 → ∃ d, extract_retry_delay (bodies n) = .hint d) →
      geminiUnarySend f = some (.error (.apiError 429 (bodies 3)))) ∧
    (∀ (f : Nat → ReqResult) (body : Str),
      f 0 = .ok ⟨429, body⟩ → extract_retry_delay body = .noHint →
      geminiUnarySend f = some (.error (.apiError 429 body))) ∧
    (∀ (f : Nat → ReqResult) (r : HttpResp),
      f 0 = .ok r → r.status ≠ 429 → geminiUnarySend f = some (.ok r)) ∧
    (∀ (f : Nat → ReqResult) (body : Str),
      f 0 = .ok ⟨429, body⟩ → extract_retry_delay body = .panicked →
      geminiUnarySend f = none) ∧
    (extract_retry_delay retryBody = .hint 7000000000) ∧
    (extract_retry_delay bothDetailsBody = .hint 2000000000) ∧
    (extract_retry_delay quotaBody = .hint 900000000) ∧
    (extract_retry_delay errorInfoBody = .hint tenSeconds) ∧
    (extract_retry_delay "oops".data = .noHint) ∧
    (extract_retry_delay floatCodeBody = .noHint) ∧
    (extract_retry_delay panicDelayBody = .panicked) ∧
    (parse_retry_delay "3.020317815s".data = .hint 3020317815) ∧
    (parse_retry_delay "900ms".data = .hint 900000000) ∧
    (parse_retry_delay "60x".data = .noHint) ∧
    (parse_retry_delay "+7s".data = .hint 7000000000) ∧
    (parse_retry_delay "-5ms".data = .hint 0) ∧
    (parse_retry_delay "nanms".data = .hint 0) ∧
    (parse_retry_delay "infms".data = .hint (u64Max * 1000000)) ∧
    (parse_retry_delay "-5s".data = .panicked) ∧
    (parse_retry_delay "infs".data = .panicked) ∧
    (parse_retry_delay "nans".data = .panicked) := by
  refine ⟨?_, ?_, ?_, ?_, ?conc⟩
  case conc => decide
  · intro f bodies hresp hdelay
    obtain ⟨d0, hd0⟩ := hdelay 0 (by omega)
    obtain ⟨d1, hd1⟩ := hdelay 1 (by omega)
    obtain ⟨d2, hd2⟩ := hdelay 2 (by omega)
    obtain ⟨d3, hd3⟩ := hdelay 3 (by omega)
    simp [geminiUnarySend, geminiMaxRetries, handle_rate_limit_retry, rateLimitProbe,
      hresp 0 (by omega), hresp 1 (by omega), hresp 2 (by omega), hresp 3 (by omega),
      hd0, hd1, hd2, hd3]
  · intro f body hresp hnone
    simp [geminiUnarySend, geminiMaxRetries, handle_rate_limit_retry, rateLimitProbe,
      hresp, hnone]
  · intro f r hresp hstatus
    simp [geminiUnarySend, geminiMaxRetries, handle_rate_limit_retry, rateLimitProbe,
      hresp, hstatus]
  · intro f body hresp hpanic
    simp [geminiUnarySend, geminiMaxRetries, handle_rate_limit_retry, rateLimitProbe,
      hresp, hpanic]

/-- C7 witness: the theorem applied to concrete request sequences — a server
answering 429-with-`RetryInfo` forever gives `ApiError 429` with the fourth
body after three retries; a 429 whose body is `\x7b\x7d` (no hint) errors at
once; a 429 whose `retryDelay` is `-5s` brings the task down. -/
theorem gemini_rate_limit_retry_spec_witness :
    (geminiUnarySend (fun _ => .ok ⟨429, retryBody⟩)
      = some (.error (.apiError 429 retryBody))) ∧
    (geminiUnarySend (fun _ => .ok ⟨429, "\x7b\x7d".data⟩)
      = some (.error (.apiError 429 "\x7b\x7d".data))) ∧
    (geminiUnarySend (fun _ => .ok ⟨429, panicDelayBody⟩) = none) := by
  refine ⟨?_, ?_, ?_⟩
  · exact gemini_rate_limit_retry_spec.1 (fun _ => .ok ⟨429, retryBody⟩)
      (fun _ => retryBody) (fun n _ => rfl)
      (fun n _ => show ∃ d, extract_retry_delay retryBody = .hint d from
        ⟨7000000000, by decide⟩)
  · exact gemini_rate_limit_retry_spec.2.1 (fun _ => .ok ⟨429, "\x7b\x7d".data⟩)
      "\x7b\x7d".data rfl (by decide)
  · exact gemini_rate_limit_retry_spec.2.2.2.1 (fun _ => .ok ⟨429, panicDelayBody⟩)
      panicDelayBody rfl (by decide)

/-! ### Supporting lemmas for the registry model table -/

theorem mapLookup_insert_self {α : Type} (k : Str) (v : α) (m : List (Str × α)) :
    mapLookup k (mapInsert k v m) = some v := by
  simp [mapInsert, mapLookup]

theorem mapLookup_insert_ne {α : Type} (k k' : Str) (v : α) (m : List (Str × α))
    (h : k' ≠ k) : mapLookup k (mapInsert k' v m) = mapLookup k m := by
  simp [mapInsert, mapLookup, h]

theorem foldl_insert_lookup (name pname : Str) :
    ∀ (models : List Str) (table : List (Str × Str)),
      mapLookup name (models.foldl (fun t m => mapInsert m pname t) table)
        = if name ∈ models then some pname else mapLookup name table := by
  intro models
  induction models with
  | nil => intro table; simp
  | cons m ms ih =>
      intro table
      simp only [List.foldl_cons, ih, List.mem_cons]
      by_cases hm : name ∈ ms
      · simp [hm]
      · by_cases hname : m = name
        · simp [hm, hname, mapLookup_insert_self]
        · rw [mapLookup_insert_ne name m pname table (by exact hname)]
          rw [if_neg hm, if_neg ?_]
          rintro (h | h)
          · exact hname h.symm
          · exact hm h

theorem applyMappings_lookup_ne (name key : Str) :
    ∀ (ms : List ModelMapping) (provs : List Str) (table table' : List (Str × Str)),
      applyMappings name ms provs table = .ok table' → key ≠ name →
      mapLookup key table' = mapLookup key table := by
  intro ms
  induction ms with
  | nil => intro provs table table' h hne; cases h; rfl
  | cons m rest ih =>
      intro provs table table' h hne
      simp only [applyMappings] at h
      by_cases hc : provs.contains m.provider
      · rw [if_pos hc] at h
        rw [ih provs _ table' h hne, mapLookup_insert_ne key name m.provider table hne.symm]
      · rw [if_neg hc] at h
        cases h

theorem applyMappings_lookup_last (name : Str) :
    ∀ (ms : List ModelMapping) (provs : List Str) (table table' : List (Str × Str))
      (lastM : ModelMapping),
      applyMappings name ms provs table = .ok table' → ms.getLast? = some lastM →
      mapLookup name table' = some lastM.provider := by
  intro ms
  induction ms with
  | nil => intro provs table table' lastM h hlast; cases hlast
  | cons m rest ih =>
      intro provs table table' lastM h hlast
      simp only [applyMappings] at h
      by_cases hc : provs.contains m.provider
      · rw [if_pos hc] at h
        cases rest with
        | nil =>
            cases h
            simp at hlast
            subst hlast
            exact mapLookup_insert_self name m.provider table
        | cons m2 rest2 =>
            rw [List.getLast?_cons_cons] at hlast
            exact ih provs _ table' lastM h hlast
      · rw [if_neg hc] at h
        cases h

theorem mappingsPhase_lookup_ne (key : Str) :
    ∀ (mcs : List ModelConfig) (provs : List Str) (table table' : List (Str × Str)),
      mappingsPhase mcs provs table = .ok table' →
      (∀ mc ∈ mcs, mc.name ≠ key) →
      mapLookup key table' = mapLookup key table := by
  intro mcs
  induction mcs with
  | nil => intro provs table table' h hne; cases h; rfl
  | cons mc rest ih =>
      intro provs table table' h hne
      simp only [mappingsPhase] at h
      cases happ : applyMappings mc.name mc.mappings provs table with
      | error e => rw [happ] at h; cases h
      | ok t1 =>
          rw [happ] at h
          rw [ih provs t1 table' h (fun mc' hmc' => hne mc' (List.mem_cons_of_mem mc hmc'))]
          exact applyMappings_lookup_ne mc.name key mc.mappings provs table t1 happ
            (fun hk => hne mc (List.mem_cons_self mc rest) hk.symm)

theorem mappingsPhase_lookup_unique :
    ∀ (mcs : List ModelConfig) (provs : List Str) (table table' : List (Str × Str))
      (mc : ModelConfig) (lastM : ModelMapping),
      mappingsPhase mcs provs table = .ok table' →
      mc ∈ mcs →
      (∀ mc' ∈ mcs, mc'.name = mc.name → mc' = mc) →
      mc.mappings.getLast? = some lastM →
      mapLookup mc.name table' = some lastM.provider := by
  intro mcs
  induction mcs with
  | nil => intro provs table table' mc lastM h hmem; cases hmem
  | cons mc0 rest ih =>
      intro provs table table' mc lastM h hmem huniq hlast
      simp only [mappingsPhase] at h
      cases happ : applyMappings mc0.name mc0.mappings provs table with
      | error e => rw [happ] at h; cases h
      | ok t1 =>
          rw [happ] at h
          by_cases hrest : mc ∈ rest
          · exact ih provs t1 table' mc lastM h hrest
              (fun mc' hmc' => huniq mc' (List.mem_cons_of_mem mc0 hmc')) hlast
          · have hmc0 : mc0 = mc := by
              rcases List.mem_cons.mp hmem with h0 | h0
              · exact h0.symm
              · exact absurd h0 hrest
            subst hmc0
            have hne : ∀ mc' ∈ rest, mc'.name ≠ mc0.name := by
              intro mc' hmc' heq
              exact hrest (huniq mc' (List.mem_cons_of_mem mc0 hmc') heq ▸ hmc')
            rw [mappingsPhase_lookup_ne mc0.name rest provs t1 table' h hne]
            exact applyMappings_lookup_last mc0.name mc0.mappings provs table t1 lastM
              happ hlast

theorem seedPhase_lookup_not_declared (name : Str) :
    ∀ (pcs : List ProviderConfig) (provs0 : List Str) (table0 : List (Str × Str))
      (provs : List Str) (table : List (Str × Str)),
      seedPhase pcs provs0 table0 = .ok (provs, table) →
      (∀ pc ∈ pcs, pc.is_enabled = true → name ∉ pc.models) →
      mapLookup name table = mapLookup name table0 := by
  intro pcs
  induction pcs with
  | nil => intro provs0 table0 provs table h hnone; cases h; rfl
  | cons pc0 rest ih =>
      intro provs0 table0 provs table h hnone
      simp only [seedPhase] at h
      by_cases hen : pc0.is_enabled = false
      · rw [if_pos hen] at h
        exact ih provs0 table0 provs table h
          (fun pc hpc => hnone pc (List.mem_cons_of_mem pc0 hpc))
      · rw [if_neg hen] at h
        cases hcred : pc0.get_auth_credential with
        | none => rw [hcred] at h; cases h
        | some cred =>
            rw [hcred] at h
            by_cases htype : knownProviderTypes.contains pc0.provider_type
            · rw [if_pos htype] at h
              rw [ih _ _ provs table h
                (fun pc hpc => hnone pc (List.mem_cons_of_mem pc0 hpc))]
              rw [foldl_insert_lookup name pc0.name pc0.models table0]
              have : name ∉ pc0.models :=
                hnone pc0 (List.mem_cons_self pc0 rest)
                  (by revert hen; cases pc0.is_enabled <;> simp)
              simp [this]
            · rw [if_neg htype] at h
              cases h

theorem seedPhase_lookup_unique (name : Str) :
    ∀ (pcs : List ProviderConfig) (provs0 : List Str) (table0 : List (Str × Str))
      (provs : List Str) (table : List (Str × Str)) (pc : ProviderConfig),
      seedPhase pcs provs0 table0 = .ok (provs, table) →
      pc ∈ pcs → pc.is_enabled = true → name ∈ pc.models →
      (∀ pc' ∈ pcs, pc'.is_enabled = true → name ∈ pc'.models → pc'.name = pc.name) →
      mapLookup name table = some pc.name := by
  intro pcs
  induction pcs with
  | nil => intro provs0 table0 provs table pc h hmem; cases hmem
  | cons pc0 rest ih =>
      intro provs0 table0 provs table pc h hmem hen hdecl hshare
      simp only [seedPhase] at h
      by_cases hlater : ∃ pc' ∈ rest, pc'.is_enabled = true ∧ name ∈ pc'.models
      · obtain ⟨pc', hpc'mem, hpc'en, hpc'decl⟩ := hlater
        have hname : pc'.name = pc.name :=
          hshare pc' (List.mem_cons_of_mem pc0 hpc'mem) hpc'en hpc'decl
        have hshare' : ∀ pc'' ∈ rest, pc''.is_enabled = true → name ∈ pc''.models →
            pc''.name = pc'.name := by
          intro pc'' h1 h2 h3
          rw [hname]
          exact hshare pc'' (List.mem_cons_of_mem pc0 h1) h2 h3
        by_cases hen0 : pc0.is_enabled = false
        · rw [if_pos hen0] at h
          rw [ih provs0 table0 provs table pc' h hpc'mem hpc'en hpc'decl hshare', hname]
        · rw [if_neg hen0] at h
          cases hcred : pc0.get_auth_credential with
          | none => rw [hcred] at h; cases h
          | some cred =>
              rw [hcred] at h
              by_cases htype : knownProviderTypes.contains pc0.provider_type
              · rw [if_pos htype] at h
                rw [ih _ _ provs table pc' h hpc'mem hpc'en hpc'decl hshare', hname]
              · rw [if_neg htype] at h
                cases h
      · push_neg at hlater
        have hmem0 : pc = pc0 ∨ pc ∈ rest := List.mem_cons.mp hmem
        have hpc0 : name ∈ pc0.models ∧ pc0.is_enabled = true ∧ pc0.name = pc.name := by
          rcases hmem0 with h0 | h0
          · subst h0; exact ⟨hdecl, hen, rfl⟩
          · exact absurd hdecl (hlater pc h0 hen)
        by_cases hen0 : pc0.is_enabled = false
        · rw [hpc0.2.1] at hen0; cases hen0
        · rw [if_neg hen0] at h
          cases hcred : pc0.get_auth_credential with
          | none => rw [hcred] at h; cases h
          | some cred =>
              rw [hcred] at h
              by_cases htype : knownProviderTypes.contains pc0.provider_type
              · rw [if_pos htype] at h
                rw [seedPhase_lookup_not_declared name rest _ _ provs table h
                  (fun pc' h1 h2 => by
                    intro h3
                    exact (hlater pc' h1 h2) h3)]
                rw [foldl_insert_lookup name pc0.name pc0.models table0]
                simp [hpc0.1, hpc0.2.2]
              · rw [if_neg htype] at h
                cases h

/-- C4 counterexample: with providers `A` and `B` and a `[[models]]` entry
for `m` whose priority-1 mapping targets `A` and whose priority-2 (last
listed) mapping targets `B`, the built table records `B` — NOT the
top-priority mapping's provider `A`, contradicting the claim. -/
theorem model_mapping_priority_counterexample :
    topPriorityMapping mappedModelConfig.mappings
      = some { priority := 1, provider := "A".data, actual_model := "x".data } ∧
    (match new_from_app_state_deps [providerA, providerB] [mappedModelConfig] with
      | .ok reg => mapLookup "m".data reg.model_to_provider
      | .error _ => none) = some "B".data ∧
    "B".data ≠ "A".data := by
  refine ⟨by rfl, by rfl, by decide⟩

/-- C4 (amended): the model table is seeded from each retained provider's
declared models and then overwritten per model name from the `[[models]]`
section; for a model with several mappings it is the LAST mapping of its
list that is recorded — the `priority` fields are not consulted.  Precisely:
when the build succeeds, (i) a model name declared (uniquely, up to equal
names between declaring providers) by an enabled provider and absent from
the `[[models]]` section resolves to that provider; (ii) a `[[models]]` entry
(unique for its name) with a non-empty mapping list resolves to the provider
of its last mapping. -/
theorem model_mapping_last_wins (pcs : List ProviderConfig) (mcs : List ModelConfig)
    (reg : ProviderRegistry)
    (hbuild : new_from_app_state_deps pcs mcs = .ok reg) :
    (∀ (name : Str) (pc : ProviderConfig),
      pc ∈ pcs → pc.is_enabled = true → name ∈ pc.models →
      (∀ pc' ∈ pcs, pc'.is_enabled = true → name ∈ pc'.models → pc'.name = pc.name) →
      (∀ mc ∈ mcs, mc.name ≠ name) →
      mapLookup name reg.model_to_provider = some pc.name) ∧
    (∀ (mc : ModelConfig) (lastM : ModelMapping),
      mc ∈ mcs →
      (∀ mc' ∈ mcs, mc'.name = mc.name → mc' = mc) →
      mc.mappings.getLast? = some lastM →
      mapLookup mc.name reg.model_to_provider = some lastM.provider) := by
  unfold new_from_app_state_deps at hbuild
  cases hseed : seedPhase pcs [] [] with
  | error e => rw [hseed] at hbuild; cases hbuild
  | ok pt =>
      obtain ⟨provs, table⟩ := pt
      rw [hseed] at hbuild
      dsimp only at hbuild
      cases hmaps : mappingsPhase mcs provs table with
      | error e => rw [hmaps] at hbuild; cases hbuild
      | ok table' =>
          rw [hmaps] at hbuild
          cases hbuild
          refine ⟨?_, ?_⟩
          · intro name pc hmem hen hdecl hshare hnotmapped
            rw [mappingsPhase_lookup_ne name mcs provs table table' hmaps hnotmapped]
            exact seedPhase_lookup_unique name pcs [] [] provs table pc hseed
              hmem hen hdecl hshare
          · intro mc lastM hmem huniq hlast
            exact mappingsPhase_lookup_unique mcs provs table table' mc lastM hmaps
              hmem huniq hlast

/-- C4 amended-claim witness: on the concrete build, `seeded-model`
(declared only by provider `B`, absent from `[[models]]`) resolves to `B`,
and `m` resolves to the provider of the LAST of its mappings, `B`. -/
theorem model_mapping_last_wins_witness :
    (match new_from_app_state_deps [providerA, providerB] [mappedModelConfig] with
      | .ok reg => mapLookup "seeded-model".data reg.model_to_provider = some "B".data ∧
                   mapLookup "m".data reg.model_to_provider = some "B".data
      | .error _ => False) := by
  cases hbuild : new_from_app_state_deps [providerA, providerB] [mappedModelConfig] with
  | error e => cases hbuild
  | ok reg =>
      have h := model_mapping_last_wins [providerA, providerB] [mappedModelConfig]
        reg hbuild
      constructor
      · exact h.1 "seeded-model".data providerB (by decide) (by decide) (by decide)
          (by decide) (by decide)
      · exact h.2 mappedModelConfig
          { priority := 2, provider := "B".data, actual_model := "y".data }
          (by decide) (by decide) (by decide)

/-! ### Supporting lemmas for the router -/

theorem splitFirst_after_le (pat : Str) : ∀ (t b a : Str),
    splitFirst pat t = some (b, a) → a.length ≤ t.length := by
  intro t
  induction t with
  | nil =>
      intro b a h
      simp only [splitFirst] at h
      by_cases hp : pat = ([] : Str)
      · rw [if_pos hp] at h; cases h; simp
      · rw [if_neg hp] at h; cases h
  | cons c rest ih =>
      intro b a h
      simp only [splitFirst] at h
      by_cases hp : pat.isPrefixOf (c :: rest)
      · rw [if_pos hp] at h
        cases h
        simp [List.length_drop]
      · rw [if_neg hp] at h
        cases hrec : splitFirst pat rest with
        | none => rw [hrec] at h; cases h
        | some ba =>
            rw [hrec] at h
            cases h
            have := ih ba.1 ba.2 (by rw [hrec])
            simp only [List.length_cons]
            omega

theorem findTag_after_lt : ∀ (s pre nm after : Str),
    findTag s = some (pre, nm, after) → after.length < s.length := by
  intro s
  induction s with
  | nil => intro pre nm after h; cases h
  | cons c rest ih =>
      intro pre nm after h
      simp only [findTag] at h
      by_cases hp : subagentOpen.isPrefixOf (c :: rest)
      · rw [if_pos hp] at h
        have hlen : subagentOpen.length ≤ (c :: rest).length :=
          List.IsPrefix.length_le (List.isPrefixOf_iff_prefix.mp hp)
        cases hsp : splitFirst subagentClose ((c :: rest).drop subagentOpen.length) with
        | some na =>
            obtain ⟨nm1, af1⟩ := na
            rw [hsp] at h
            dsimp only at h
            by_cases hnl : nm1.contains '\n'
            · rw [if_pos hnl] at h
              cases hrec : findTag rest with
              | none => rw [hrec] at h; cases h
              | some pna =>
                  rw [hrec] at h
                  cases h
                  have := ih pna.1 pna.2.1 pna.2.2 (by rw [hrec])
                  simp only [List.length_cons]
                  omega
            · rw [if_neg hnl] at h
              cases h
              have hle := splitFirst_after_le subagentClose _ _ _ hsp
              rw [List.length_drop] at hle
              have hopen : List.length subagentOpen = 20 := by decide
              rw [hopen] at hle hlen
              simp only [List.length_cons] at hlen hle ⊢
              omega
        | none =>
            rw [hsp] at h
            dsimp only at h
            cases hrec : findTag rest with
            | none => rw [hrec] at h; cases h
            | some pna =>
                rw [hrec] at h
                cases h
                have := ih pna.1 pna.2.1 pna.2.2 (by rw [hrec])
                simp only [List.length_cons]
                omega
      · rw [if_neg hp] at h
        cases hrec : findTag rest with
        | none => rw [hrec] at h; cases h
        | some pna =>
            rw [hrec] at h
            cases h
            have := ih pna.1 pna.2.1 pna.2.2 (by rw [hrec])
            simp only [List.length_cons]
            omega

theorem removeTagsFuel_irrel : ∀ (f1 f2 : Nat) (s : Str),
    s.length ≤ f1 → s.length ≤ f2 → removeTagsFuel f1 s = removeTagsFuel f2 s := by
  intro f1
  induction f1 with
  | zero =>
      intro f2 s h1 h2
      have : s = [] := List.length_eq_zero.mp (Nat.le_zero.mp h1)
      subst this
      cases f2 with
      | zero => rfl
      | succ j => simp [removeTagsFuel, findTag]
  | succ k ih =>
      intro f2 s h1 h2
      cases f2 with
      | zero =>
          have : s = [] := List.length_eq_zero.mp (Nat.le_zero.mp h2)
          subst this
          simp [removeTagsFuel, findTag]
      | succ j =>
          simp only [removeTagsFuel]
          cases hf : findTag s with
          | none => rfl
          | some pna =>
              obtain ⟨pre, nm, after⟩ := pna
              have hlt := findTag_after_lt s pre nm after hf
              dsimp only
              rw [ih j after (by omega) (by omega)]

/-- The fuel-driven `removeTags` satisfies exactly the `replace_all`
recurrence: delete the leftmost match and continue after it. -/
theorem removeTags_eq (s : Str) :
    removeTags s =
      match findTag s with
      | some (pre, _, after) => pre ++ removeTags after
      | none => s := by
  unfold removeTags
  cases hf : findTag s with
  | none =>
      cases hs : s with
      | nil => rfl
      | cons c rest =>
          simp only [List.length_cons, removeTagsFuel]
          rw [hs] at hf
          rw [hf]
  | some pna =>
      obtain ⟨pre, nm, after⟩ := pna
      have hlt := findTag_after_lt s pre nm after hf
      cases hs : s with
      | nil => rw [hs] at hf; cases hf
      | cons c rest =>
          simp only [List.length_cons, removeTagsFuel]
          rw [hs] at hf hlt
          rw [hf]
          simp only [List.length_cons] at hlt
          dsimp only
          rw [removeTagsFuel_irrel rest.length after.length after (by omega) (by omega)]

theorem findTag_some_contains : ∀ (s pre nm after : Str),
    findTag s = some (pre, nm, after) → containsSub subagentOpen s = true := by
  intro s
  induction s with
  | nil => intro pre nm after h; cases h
  | cons c rest ih =>
      intro pre nm after h
      simp only [findTag] at h
      unfold containsSub splitFirst
      by_cases hp : subagentOpen.isPrefixOf (c :: rest)
      · simp [hp]
      · rw [if_neg hp] at h ⊢
        cases hsp' : findTag rest with
        | none => rw [hsp'] at h; cases h
        | some pna =>
            have := ih pna.1 pna.2.1 pna.2.2 (by rw [hsp'])
            unfold containsSub at this
            cases hx : splitFirst subagentOpen rest with
            | none => rw [hx] at this; cases this
            | some ba => simp [hx]

theorem extract_subagent_fst_congr (req req' : AnthropicRequest)
    (h : req.system = req'.system) :
    (extract_subagent_model req).1 = (extract_subagent_model req').1 := by
  unfold extract_subagent_model
  rw [h]
  cases hs : req'.system with
  | none => rfl
  | some sp =>
      cases sp with
      | text t => rfl
      | blocks bs =>
          match bs with
          | [] => rfl
          | [b] => rfl
          | b0 :: b1 :: rest =>
              dsimp only
              by_cases hc : containsSub subagentOpen b1.text
              · rw [if_pos hc, if_pos hc]
                cases hf : findTag b1.text with
                | none => rfl
                | some pna => rfl
              · rw [if_neg hc, if_neg hc]
  

theorem extract_none_eq (req : AnthropicRequest)
    (h : (extract_subagent_model req).1 = none) :
    extract_subagent_model req = (none, req) := by
  unfold extract_subagent_model at h ⊢
  cases hs : req.system with
  | none => rfl
  | some sp =>
      cases sp with
      | text t => rfl
      | blocks bs =>
          match bs with
          | [] => rfl
          | [b] => rfl
          | b0 :: b1 :: rest =>
              rw [hs] at h
              dsimp only at h ⊢
              by_cases hc : containsSub subagentOpen b1.text
              · rw [if_pos hc] at h ⊢
                cases hf : findTag b1.text with
                | none => rfl
                | some pna =>
                    obtain ⟨pre, nm, after⟩ := pna
                    rw [hf] at h
                    cases h
              · rw [if_neg hc]

theorem extract_eq_of_find (req : AnthropicRequest) (b0 b1 : SystemBlock)
    (rest : List SystemBlock) (pre nm post : Str)
    (hsys : req.system = some (.blocks (b0 :: b1 :: rest)))
    (hfind : findTag b1.text = some (pre, nm, post)) :
    extract_subagent_model req =
      (some nm,
       { req with system := some (.blocks (b0 :: ⟨removeTags b1.text⟩ :: rest)) }) := by
  unfold extract_subagent_model
  rw [hsys]
  dsimp only
  rw [if_pos (findTag_some_contains b1.text pre nm post hfind), hfind]

theorem autoMapStep_tools (r : Router) (req : AnthropicRequest) :
    hasWebSearchTool (r.autoMapStep req) = hasWebSearchTool req := by
  unfold Router.autoMapStep
  cases r.auto_map_regex with
  | none => rfl
  | some m =>
      dsimp only
      by_cases hm : m req.model
      · rw [if_pos hm]; rfl
      · rw [if_neg hm]

theorem autoMapStep_system (r : Router) (req : AnthropicRequest) :
    (r.autoMapStep req).system = req.system := by
  unfold Router.autoMapStep
  cases r.auto_map_regex with
  | none => rfl
  | some m =>
      dsimp only
      by_cases hm : m req.model
      · rw [if_pos hm]
      · rw [if_neg hm]

theorem autoMapStep_thinking (r : Router) (req : AnthropicRequest) :
    isPlanMode (r.autoMapStep req) = isPlanMode req := by
  unfold Router.autoMapStep
  cases r.auto_map_regex with
  | none => rfl
  | some m =>
      dsimp only
      by_cases hm : m req.model
      · rw [if_pos hm]; rfl
      · rw [if_neg hm]

theorem route_websearch_hit (r : Router) (req : AnthropicRequest) (ws : Str)
    (hws : r.config.websearch = some ws)
    (htool : hasWebSearchTool req = true) :
    r.route req = (⟨ws, .webSearch⟩, r.autoMapStep req) := by
  unfold Router.route
  rw [hws]
  dsimp only
  rw [show hasWebSearchTool (r.autoMapStep req) = true from
    (autoMapStep_tools r req).trans htool]
  simp

theorem route_no_websearch (r : Router) (req : AnthropicRequest)
    (h : r.config.websearch = none ∨ hasWebSearchTool req = false) :
    r.route req = r.routeSubagent req.model (r.autoMapStep req) := by
  unfold Router.route
  rcases h with h | h
  · rw [h]
  · cases hws : r.config.websearch with
    | none => rfl
    | some ws =>
        dsimp only
        rw [show hasWebSearchTool (r.autoMapStep req) = false from
          (autoMapStep_tools r req).trans h]
        simp

/-- C1: for every canonical request with a tools entry whose `type` starts
with `web_search` and with `thinking.type = "enabled"`, when the config sets
both `router.websearch` and `router.think`, `route` decides
`(router.websearch, WebSearch)` — the WebSearch rule is checked before the
Think rule and wins whenever both apply. -/
theorem websearch_rule_beats_think_rule (r : Router) (req : AnthropicRequest)
    (ws tm : Str)
    (hws : r.config.websearch = some ws)
    (hth : r.config.think = some tm)
    (htool : hasWebSearchTool req = true)
    (hthink : isPlanMode req = true) :
    (r.route req).1 = ⟨ws, RouteType.webSearch⟩ := by
  rw [route_websearch_hit r req ws hws htool]

/-- C1 witness: the scenario-3 request (`thinking:{type:"enabled"}` plus a
`web_search_2025_04` tool) under the test config decides
`("websearch.model", WebSearch)`. -/
theorem websearch_rule_beats_think_rule_witness :
    (testRouter.route
      { baseRequest with
          tools := some [webSearchTool]
          thinking := some { type := "enabled".data, budget_tokens := some 10000 } }).1
      = ⟨"websearch.model".data, RouteType.webSearch⟩ :=
  websearch_rule_beats_think_rule testRouter _ "websearch.model".data
    "think.model".data rfl rfl (by rfl) (by rfl)

/-- C2: the Background rule tests the background regex against the model
name the request had ON ENTRY to `route`: whenever `router.background` is
set, the original model matches, and no earlier rule fires, the decision is
`(router.background, Background)` — regardless of the auto-map rewrite that
has already replaced `request.model` (the theorem holds for every auto-map
matcher state, in particular when it rewrote the model to `router.default`). -/
theorem background_uses_original_model (r : Router) (req : AnthropicRequest) (bg : Str)
    (hbg : r.config.background = some bg)
    (hmatch : r.is_background_task req.model = true)
    (hws : r.config.websearch = none ∨ hasWebSearchTool req = false)
    (hsub : (extract_subagent_model req).1 = none)
    (hth : r.config.think = none ∨ isPlanMode req = false) :
    (r.route req).1 = ⟨bg, RouteType.background⟩ := by
  rw [route_no_websearch r req hws]
  have hsub1 : extract_subagent_model (r.autoMapStep req) = (none, r.autoMapStep req) :=
    extract_none_eq _ ((extract_subagent_fst_congr _ req (autoMapStep_system r req)).trans hsub)
  unfold Router.routeSubagent
  rw [hsub1]
  dsimp only
  unfold Router.routeThink
  have hthink : ∀ tmm, r.config.think = some tmm →
      isPlanMode (r.autoMapStep req) = false := by
    intro tmm htm
    rcases hth with h | h
    · rw [htm] at h; cases h
    · exact (autoMapStep_thinking r req).trans h
  cases htm : r.config.think with
  | some tmm =>
      rw [hthink tmm htm]
      simp only [if_false, Bool.false_eq_true]
      unfold Router.routeBackground
      rw [hbg, hmatch]
      simp
  | none =>
      unfold Router.routeBackground
      rw [hbg, hmatch]
      simp

/-- C2 witness: the scenario-2 request (`model = "claude-3-5-haiku-20241022"`)
under the test config decides `("background.model", Background)`, while the
auto-map step has indeed already rewritten the request's model to
`"default.model"`. -/
theorem background_uses_original_model_witness :
    ((testRouter.route { baseRequest with model := "claude-3-5-haiku-20241022".data }).1
      = ⟨"background.model".data, RouteType.background⟩) ∧
    ((testRouter.route { baseRequest with model := "claude-3-5-haiku-20241022".data }).2.model
      = "default.model".data) :=
  ⟨background_uses_original_model testRouter _ "background.model".data rfl
    (by decide) (Or.inr (by rfl)) (by rfl) (Or.inr (by rfl)),
   by rfl⟩

/-- C3 counterexample: the claim "removes every occurrence of the tag ... so
that a second extraction on the already-routed request finds no tag" fails
at `spliceRequest`: route extracts `a` (the only regex match), but deleting
that match splices the surrounding fragments into a NEW complete tag, so a
second extraction on the routed request finds `b`. -/
theorem subagent_second_extraction_counterexample :
    ((noWebsearchRouter.route spliceRequest).1
      = ⟨"a".data, RouteType.default⟩) ∧
    ((extract_subagent_model (noWebsearchRouter.route spliceRequest).2).1
      = some "b".data) :=
  ⟨by rfl, by rfl⟩

/-- C3 (amended): for every canonical request whose system prompt is a
Blocks variant with at least 2 blocks and whose block at index 1 matches the
subagent-tag regex (captured name NAME), when the WebSearch rule does not
fire, `route` returns `(NAME, Default)` and replaces that block's text by
the text with all (non-overlapping, leftmost-first) tag matches removed.
When that removal does not splice new delimiter text together — in
particular whenever the resulting text no longer contains the opening
delimiter — a second extraction on the already-routed request finds no tag;
the counterexample shows removal can splice a fresh tag out of fragments,
in which case a second extraction does find one. -/
theorem subagent_tag_strip_spec (r : Router) (req : AnthropicRequest)
    (b0 b1 : SystemBlock) (rest : List SystemBlock) (pre nm post : Str)
    (hsys : req.system = some (.blocks (b0 :: b1 :: rest)))
    (hfind : findTag b1.text = some (pre, nm, post))
    (hws : r.config.websearch = none ∨ hasWebSearchTool req = false) :
    ∃ req', r.route req = (⟨nm, RouteType.default⟩, req') ∧
      req'.system = some (.blocks (b0 :: ⟨removeTags b1.text⟩ :: rest)) ∧
      (containsSub subagentOpen (removeTags b1.text) = false →
        (extract_subagent_model req').1 = none) := by
  rw [route_no_websearch r req hws]
  have hsys1 : (r.autoMapStep req).system = some (.blocks (b0 :: b1 :: rest)) :=
    (autoMapStep_system r req).trans hsys
  have hex := extract_eq_of_find (r.autoMapStep req) b0 b1 rest pre nm post hsys1 hfind
  refine ⟨{ r.autoMapStep req with
              system := some (.blocks (b0 :: ⟨removeTags b1.text⟩ :: rest)) }, ?_, rfl, ?_⟩
  · unfold Router.routeSubagent
    rw [hex]
  · intro hnc
    unfold extract_subagent_model
    dsimp only
    rw [if_neg (by rw [hnc]; exact Bool.false_ne_true)]

/-- C3 amended-claim witness: the spec's scenario 4 — block text
`"Context.\n<CCM-SUBAGENT-MODEL>gpt-4o</CCM-SUBAGENT-MODEL>\nMore."` routes
to `("gpt-4o", Default)`, the block becomes `"Context.\n\nMore."`, and a
second extraction finds nothing. -/
theorem subagent_tag_strip_spec_witness :
    ∃ req', testRouter.route subagentScenarioRequest
        = (⟨"gpt-4o".data, RouteType.default⟩, req') ∧
      req'.system = some (.blocks [⟨"You are Claude.".data⟩, ⟨"Context.\n\nMore.".data⟩]) ∧
      (extract_subagent_model req').1 = none := by
  obtain ⟨req', h1, h2, h3⟩ :=
    subagent_tag_strip_spec testRouter subagentScenarioRequest
      ⟨"You are Claude.".data⟩ ⟨subagentScenarioText⟩ []
      "Context.\n".data "gpt-4o".data "\nMore.".data
      (by rfl) (by rfl) (Or.inr (by rfl))
  refine ⟨req', h1, ?_, h3 (by rfl)⟩
  rw [h2]
  rfl

/-- C9 counterexample: on the invalid token `"not-a-jwt"` the account-id
extraction fails, yet the OAuth Codex send path does NOT surface an
`AuthError` — it succeeds, merely omitting the Codex-specific headers
(no `chatgpt-account-id` among the assembled headers). -/
theorem extract_account_id_counterexample :
    (extract_account_id "not-a-jwt".data = none) ∧
    (oauthCodexPrepare "not-a-jwt".data = .ok (codexBaseHeaders "not-a-jwt".data)) ∧
    ("chatgpt-account-id".data ∉ (codexHeaderStep "not-a-jwt".data).map Prod.fst) :=
  ⟨by rfl, by rfl, by decide⟩

/-- C9 (amended): extracting the ChatGPT account id never crashes the
adapter — `extract_account_id` is total, returning `none` whenever the token
is not a three-segment JWT (and on any base64url/UTF-8/JSON/claim failure in
the middle segment); but the failure is NOT surfaced as an AuthError: the
send path's header-assembly step always succeeds, simply omitting the
Codex-specific headers (in particular `chatgpt-account-id`) when extraction
fails, and attaching them with the extracted id when it succeeds. -/
theorem extract_account_id_total_spec :
    (∀ tok : Str, (splitChar '.' tok).length ≠ 3 → extract_account_id tok = none) ∧
    (∀ tok : Str, oauthCodexPrepare tok = .ok (codexHeaderStep tok)) ∧
    (∀ tok : Str, extract_account_id tok = none →
      codexHeaderStep tok = codexBaseHeaders tok ∧
      "chatgpt-account-id".data ∉ (codexHeaderStep tok).map Prod.fst) ∧
    (∀ (tok id : Str), extract_account_id tok = some id →
      ("chatgpt-account-id".data, id) ∈ codexHeaderStep tok) := by
  refine ⟨?_, fun tok => rfl, ?_, ?_⟩
  · intro tok hlen
    unfold extract_account_id
    match hsp : splitChar '.' tok with
    | [] => rfl
    | [a] => rfl
    | [a, b] => rfl
    | [a, b, c] => rw [hsp] at hlen; simp at hlen
    | a :: b :: c :: d :: rest => rfl
  · intro tok hnone
    unfold codexHeaderStep
    rw [hnone]
    refine ⟨by simp, ?_⟩
    simp only [List.append_nil, codexBaseHeaders, List.map_cons, List.map_nil]
    decide
  · intro tok id hsome
    unfold codexHeaderStep
    rw [hsome]
    simp [codexExtraHeaders, codexBaseHeaders]

/-- C9 witness: the theorem applied at concrete tokens — the two-segment
token `"a.b"` extracts nothing and its header set is the bare base set
without `chatgpt-account-id`; the well-formed `validJwt` extracts
`"acct-123"`, which is attached as the `chatgpt-account-id` header. -/
theorem extract_account_id_total_spec_witness :
    (extract_account_id "a.b".data = none) ∧
    ("chatgpt-account-id".data ∉ (codexHeaderStep "a.b".data).map Prod.fst) ∧
    (extract_account_id validJwt = some "acct-123".data) ∧
    (("chatgpt-account-id".data, "acct-123".data) ∈ codexHeaderStep validJwt) := by
  have h1 := extract_account_id_total_spec.1 "a.b".data (by decide)
  refine ⟨h1, (extract_account_id_total_spec.2.2.1 "a.b".data h1).2, by rfl, ?_⟩
  exact extract_account_id_total_spec.2.2.2 validJwt "acct-123".data (by rfl)
